import Mathlib

/-!
Shallow embedding of the petscan_rs parameter-normalization, set-combination
and SQL-fragment logic (src/form_parameters.rs and src/platform.rs), together
with theorems settling the specified properties against it.

Modelling conventions:
* Rust `String` values are Lean `String`s; character-level helpers operate on
  the underlying character lists.
* Rust `HashMap<String, String>` values are association lists whose insert
  replaces the value at an existing key in place and appends new keys; every
  map-level property below is stated up to key/value-set or set-membership
  equality, so the concrete iteration order never matters.
* Machine integers are `Nat`/`Int` with the explicit range checks that the
  Rust `parse` implementations perform; `f32` values are modelled by the
  inductive `F32` below, with IEEE rounding/overflow abstracted to exact
  rationals (only parse success/failure and the programmed default values
  are relevant to any claim).
-/

/-- The single-quote character, used inside SQL text literals. -/
def sqc : String := (Char.ofNat 39).toString

/-- Whitespace trim at both ends of a character list, matching `str::trim`
on the ASCII whitespace the parameters can contain. -/
def trimChars (l : List Char) : List Char :=
  ((l.dropWhile Char.isWhitespace).reverse.dropWhile Char.isWhitespace).reverse

/-- String wrapper for `trimChars`. -/
def trimS (s : String) : String := ⟨trimChars s.data⟩

/-- Split a character list on a separator character, keeping empty pieces,
matching `str::split` with a one-character pattern. -/
def splitOnCharL (sep : Char) : List Char → List (List Char)
  | [] => [[]]
  | c :: rest =>
    if c = sep then [] :: splitOnCharL sep rest
    else
      match splitOnCharL sep rest with
      | [] => [[c]]
      | h :: t => (c :: h) :: t

/-- String wrapper for `splitOnCharL`. -/
def splitSepS (sep : Char) (s : String) : List String :=
  (splitOnCharL sep s.data).map (fun l => ⟨l⟩)

/-- Join strings with a separator, as `Vec::join` does. -/
def joinSep (sep : String) : List String → String
  | [] => ""
  | [x] => x
  | x :: xs => x ++ sep ++ joinSep sep xs

/-- Split a character list at the first occurrence of `c`; the second
component is `none` when `c` does not occur. -/
def splitFirstChar (c : Char) : List Char → List Char × Option (List Char)
  | [] => ([], none)
  | x :: rest =>
    if x = c then ([], some rest)
    else
      let p := splitFirstChar c rest
      (x :: p.1, p.2)

/-- Value of a decimal digit character. -/
def digitVal? (c : Char) : Option Nat :=
  if c.isDigit then some (c.toNat - 48) else none

/-- Accumulate a decimal digit run; `none` on any non-digit.  The empty list
yields the accumulator (callers reject empty runs where Rust does). -/
def parseDigitsAux : List Char → Nat → Option Nat
  | [], acc => some acc
  | c :: rest, acc =>
    match digitVal? c with
    | some d => parseDigitsAux rest (acc * 10 + d)
    | none => none

/-- A non-empty all-digit run parsed as a natural number. -/
def parseDigits? : List Char → Option Nat
  | [] => none
  | l => parseDigitsAux l 0

/-- Rust's `str::parse` for an unsigned integer type with exclusive upper
bound `bound`: an optional leading `+`, then a non-empty digit run, value in
range; anything else is an error. -/
def parseUnsigned? (bound : Nat) (s : String) : Option Nat :=
  let l := match s.data with
    | '+' :: rest => rest
    | l => l
  match parseDigits? l with
  | some n => if n < bound then some n else none
  | none => none

/-- `str::parse::<u16>`. -/
def parseU16? : String → Option Nat := parseUnsigned? 65536

/-- `str::parse::<usize>` on a 64-bit target. -/
def parseUsize? : String → Option Nat := parseUnsigned? (2 ^ 64)

/-- `str::parse::<i64>`: optional sign, non-empty digit run, 64-bit range. -/
def parseI64? (s : String) : Option Int :=
  match s.data with
  | '+' :: rest =>
    (parseDigits? rest).bind fun n => if n ≤ 2 ^ 63 - 1 then some (n : Int) else none
  | '-' :: rest =>
    (parseDigits? rest).bind fun n => if n ≤ 2 ^ 63 then some (-(n : Int)) else none
  | l =>
    (parseDigits? l).bind fun n => if n ≤ 2 ^ 63 - 1 then some (n : Int) else none

/-- Model of an `f32` value: IEEE rounding and overflow are abstracted, the
finite case carrying the exact decimal value.  Only parse success/failure and
the literal defaults `0.0` / `1.0` matter to the claims. -/
inductive F32
  | nan
  | inf (neg : Bool)
  | finite (q : Rat)
deriving DecidableEq, Repr

/-- `str::parse::<f32>`: optional sign; `inf`/`infinity`/`nan`
(case-insensitive); or a decimal mantissa `digits[.digits]` / `.digits` with
an optional `e`-exponent. -/
def parseF32? (s : String) : Option F32 :=
  let l := s.data.map Char.toLower
  let sgn : Bool × List Char :=
    match l with
    | '+' :: rest => (false, rest)
    | '-' :: rest => (true, rest)
    | rest => (false, rest)
  let neg := sgn.1
  let body := sgn.2
  if body = "inf".data ∨ body = "infinity".data then some (.inf neg)
  else if body = "nan".data then some .nan
  else
    let me := splitFirstChar 'e' body
    let md := splitFirstChar '.' me.1
    let mant? : Option Rat :=
      match md.2 with
      | none =>
        (parseDigits? md.1).map fun n => (n : Rat)
      | some fp =>
        if md.1 = [] ∧ fp = [] then none
        else
          match parseDigitsAux md.1 0, parseDigitsAux fp 0 with
          | some i, some f => some ((i : Rat) + (f : Rat) / (10 : Rat) ^ fp.length)
          | _, _ => none
    match mant? with
    | none => none
    | some m =>
      let withExp? : Option Rat :=
        match me.2 with
        | none => some m
        | some e =>
          let esgn : Bool × List Char :=
            match e with
            | '+' :: rest => (false, rest)
            | '-' :: rest => (true, rest)
            | rest => (false, rest)
          (parseDigits? esgn.2).map fun k =>
            if esgn.1 then m / (10 : Rat) ^ k else m * (10 : Rat) ^ k
      withExp?.map fun v => .finite (if neg then -v else v)

/-- Hex digit value, for percent-decoding. -/
def hexVal? (c : Char) : Option Nat :=
  if c.isDigit then some (c.toNat - 48)
  else if 'a' ≤ c ∧ c ≤ 'f' then some (c.toNat - 87)
  else if 'A' ≤ c ∧ c ≤ 'F' then some (c.toNat - 55)
  else none

/-- Form-urlencoded decoding of one piece: `+` becomes a space and `%XX`
becomes the character with code `XX` (multi-byte UTF-8 percent sequences are
modelled bytewise; every input the claims exercise is ASCII). -/
def pctDecode : List Char → List Char
  | [] => []
  | c :: rest =>
    if c = '+' then ' ' :: pctDecode rest
    else if c = '%' then
      match rest with
      | a :: b :: rest2 =>
        match hexVal? a, hexVal? b with
        | some ha, some hb => Char.ofNat (16 * ha + hb) :: pctDecode rest2
        | _, _ => '%' :: pctDecode (a :: b :: rest2)
      | [a] => '%' :: pctDecode [a]
      | [] => ['%']
    else c :: pctDecode rest

/-- Uppercase hex digit character. -/
def hexDigitU (n : Nat) : Char :=
  if n < 10 then Char.ofNat (48 + n) else Char.ofNat (55 + n)

/-- UTF-8 byte sequence of a code point. -/
def utf8Bytes (n : Nat) : List Nat :=
  if n < 0x80 then [n]
  else if n < 0x800 then [0xc0 + n / 64, 0x80 + n % 64]
  else if n < 0x10000 then [0xe0 + n / 4096, 0x80 + n / 64 % 64, 0x80 + n % 64]
  else [0xf0 + n / 262144, 0x80 + n / 4096 % 64, 0x80 + n / 64 % 64, 0x80 + n % 64]

/-- Characters percent-encoded by `Uri::percent_encode` (the percent-encoding
crate's DEFAULT_ENCODE_SET): controls, non-ASCII, and
space `" # < > ` ? { }`. -/
def needsEncode (c : Char) : Bool :=
  c.toNat < 0x20 || 0x7e < c.toNat ||
    c ∈ ([0x20, 0x22, 0x23, 0x3c, 0x3e, 0x60, 0x3f, 0x7b, 0x7d].map Char.ofNat)

/-- Percent-encode one character (UTF-8 bytewise). -/
def encodeChar (c : Char) : List Char :=
  if needsEncode c then
    (utf8Bytes c.toNat).flatMap fun b => ['%', hexDigitU (b / 16), hexDigitU (b % 16)]
  else [c]

/-- `Uri::percent_encode` on a whole string. -/
def pctEncode (s : String) : String := ⟨s.data.flatMap encodeChar⟩

/-- Association-list lookup keyed on strings (first occurrence wins, as in a
well-formed `HashMap` image where keys are unique). -/
def lookupKV {α : Type} : List (String × α) → String → Option α
  | [], _ => none
  | (k, v) :: rest, key => if k = key then some v else lookupKV rest key

/-- `HashMap::contains_key`. -/
def hasKeyKV {α : Type} (m : List (String × α)) (k : String) : Bool :=
  (lookupKV m k).isSome

/-- `HashMap::insert`: replace the value at an existing key in place, append
a new key at the end. -/
def insertKV {α : Type} (m : List (String × α)) (k : String) (v : α) :
    List (String × α) :=
  if hasKeyKV m k then m.map fun p => if p.1 = k then (k, v) else p
  else m ++ [(k, v)]

/-- `FormParameters`: the canonical parameter map plus the derived namespace
set (`HashSet<usize>` modelled as a duplicate-free list). -/
structure FormParameters where
  params : List (String × String)
  ns : List Nat
deriving DecidableEq, Repr

/-- Insert into the namespace set (`HashSet::insert`). -/
def insertNat (ns : List Nat) (n : Nat) : List Nat :=
  if n ∈ ns then ns else ns ++ [n]

/-- The key pattern `^ns\[(\d+)\]$` combined with `str::parse::<usize>` of
the captured digits: `some n` when the key is `ns[D]` for a non-empty digit
run `D` denoting `n` within the 64-bit range. -/
def nsKeyNum? (k : String) : Option Nat :=
  match k.data with
  | 'n' :: 's' :: '[' :: rest =>
    match rest.getLast? with
    | some last =>
      if last = ']' then
        match parseDigits? (rest.dropLast) with
        | some n => if n < 2 ^ 64 then some n else none
        | none => none
      else none
    | none => none
  | _ => none

/-- The per-entry step of `ns_from_params`: entries whose value is `"1"`
contribute; the dead backwards-compat branch (`k == "ns" && v == "*"` under
`v == "1"`) is kept as in the source. -/
def nsStepFn (ns : List Nat) (kv : String × String) : List Nat :=
  if kv.2 = "1" then
    let ns1 := if kv.1 = "ns" ∧ kv.2 = "*" then insertNat ns 0 else ns
    match nsKeyNum? kv.1 with
    | some n => insertNat ns1 n
    | none => ns1
  else ns

/-- `FormParameters::ns_from_params`. -/
def ns_from_params (m : List (String × String)) : List Nat :=
  m.foldl nsStepFn []

/-- Decoded key/value pairs of a query string: split on `&`, skip empty
pieces, split each piece at the first `=` (missing `=` gives an empty
value), form-urlencoded-decode both sides; as the url crate's
`query_pairs` does. -/
def decodeQueryPairs (q : String) : List (String × String) :=
  ((splitOnCharL '&' q.data).filter (fun piece => piece ≠ [])).map fun piece =>
    let kv := splitFirstChar '=' piece
    (⟨pctDecode kv.1⟩, ⟨pctDecode (kv.2.getD [])⟩)

/-- Collect decoded pairs into the parameter map; on duplicate keys the last
value wins, as when collecting into a `HashMap`. -/
def pairsToParams (pairs : List (String × String)) : List (String × String) :=
  pairs.foldl (fun m kv => insertKV m kv.1 kv.2) []

/-- `FormParameters::has_param` (key present; the value may be blank). -/
def FormParameters.has_param (fp : FormParameters) (key : String) : Bool :=
  hasKeyKV fp.params key

/-- `FormParameters::set_param`. -/
def FormParameters.set_param (fp : FormParameters) (key value : String) :
    FormParameters :=
  { fp with params := insertKV fp.params key value }

/-- `FormParameters::fallback`: copy the fallback key's value onto the
primary key when the primary is absent or blank. -/
def FormParameters.fallback (fp : FormParameters) (key_primary key_fallback : String) :
    FormParameters :=
  if fp.has_param key_fallback = false then fp
  else if fp.has_param key_primary = false ∨ lookupKV fp.params key_primary = some "" then
    match lookupKV fp.params key_fallback with
    | some value => fp.set_param key_primary value
    | none => fp
  else fp

/-- One presence-triggered legacy rewrite: if `trigger` is present, set
`target` to `value`. -/
def legacy_step (fp : FormParameters) (trigger target value : String) :
    FormParameters :=
  if fp.has_param trigger then fp.set_param target value else fp

/-- The legacy `ns=*` rule: insert namespace `0` when the derived set is
still empty and `ns` is the bare `*`. -/
def legacy_ns_star (fp : FormParameters) : FormParameters :=
  if fp.has_param "ns" = true ∧ fp.ns = [] then
    if lookupKV fp.params "ns" = some "*" then { fp with ns := insertNat fp.ns 0 }
    else fp
  else fp

/-- `FormParameters::legacy_parameters`, step by step in source order. -/
def FormParameters.legacy_parameters (fp0 : FormParameters) : FormParameters :=
  let fp := fp0.fallback "language" "lang"
  let fp := fp.fallback "categories" "cats"
  let fp := legacy_ns_star fp
  let fp := legacy_step fp "comb_subset" "combination" "subset"
  let fp := legacy_step fp "comb_union" "combination" "union"
  let fp := legacy_step fp "get_q" "wikidata_item" "any"
  let fp := legacy_step fp "wikidata" "wikidata_item" "any"
  let fp := legacy_step fp "wikidata_no_item" "wikidata_item" "without"
  fp

/-- `FormParameters::outcome_from_query`: decode the pairs, collect the map,
derive the namespace set, apply legacy normalization.  (`Url::parse` of
`https://127.0.0.1/?` + query succeeds on every input the claims range over,
so the model returns the parameters directly.) -/
def outcome_from_query (query : String) : FormParameters :=
  let params := pairsToParams (decodeQueryPairs query)
  let ns := ns_from_params params
  FormParameters.legacy_parameters { params := params, ns := ns }

/-- One base pair of the `rebase` merge loop: adopt the base value when the
key is missing or present-but-blank. -/
def mergeStep (acc : List (String × String)) (kv : String × String) :
    List (String × String) :=
  match lookupKV acc kv.1 with
  | some w => if w = "" then insertKV acc kv.1 kv.2 else acc
  | none => insertKV acc kv.1 kv.2

/-- The merge loop of `FormParameters::rebase`. -/
def rebase_merge (selfParams baseParams : List (String × String)) :
    List (String × String) :=
  baseParams.foldl mergeStep selfParams

/-- `FormParameters::rebase`: merge, re-apply legacy normalization, then
recompute the namespace set from the merged parameters. -/
def FormParameters.rebase (fp base : FormParameters) : FormParameters :=
  let merged := FormParameters.legacy_parameters
    { params := rebase_merge fp.params base.params, ns := fp.ns }
  { merged with ns := ns_from_params merged.params }

/-- `FormParameters::to_string`: percent-encode each key and value, join
`key=value` pairs with `&`. -/
def FormParameters.to_string (fp : FormParameters) : String :=
  joinSep "&" (fp.params.map fun kv => pctEncode kv.1 ++ "=" ++ pctEncode kv.2)

/-- `Platform` (only the parameter view is relevant to the claims; the
shared application state and the cached result are outside their scope). -/
structure Platform where
  form_parameters : FormParameters
deriving DecidableEq, Repr

/-- `Platform::has_param`: key present with a non-blank value. -/
def Platform.has_param (p : Platform) (param : String) : Bool :=
  match lookupKV p.form_parameters.params param with
  | some s => !(s == "")
  | none => false

/-- `Platform::get_param`. -/
def Platform.get_param (p : Platform) (param : String) : Option String :=
  if p.has_param param then lookupKV p.form_parameters.params param else none

/-- `Platform::get_param_blank`. -/
def Platform.get_param_blank (p : Platform) (param : String) : String :=
  (p.get_param param).getD ""

/-- `Platform::get_param_default`. -/
def Platform.get_param_default (p : Platform) (param default : String) : String :=
  let ret := (p.get_param param).getD default
  if ret = "" then default else ret

/-- `Platform::get_param_as_vec` (every separator used by the source is a
single character: `"\n"` or `","`). -/
def Platform.get_param_as_vec (p : Platform) (param : String) (sep : Char) :
    List String :=
  match p.get_param param with
  | some s => ((splitSepS sep s).map trimS).filter fun t => t != ""
  | none => []

/-- `Platform::get_main_wiki`. -/
def Platform.get_main_wiki (p : Platform) : Option String := do
  let language ← p.get_param "language"
  let project ← p.get_param "project"
  if project = "wikipedia" then some (language ++ "wiki") else none

/-- `SQLtuple`: query text with `?` placeholders plus bound values. -/
def SQLtuple : Type := String × List String
deriving instance DecidableEq, Repr for SQLtuple

/-- `Platform::append_sql`. -/
def append_sql (sql sub : SQLtuple) : SQLtuple :=
  (sql.1 ++ sub.1, sql.2 ++ sub.2)

/-- `Platform::prep_quote`: drop blank entries after trimming, emit one
comma-separated `?` per surviving value. -/
def prep_quote (strings : List String) : SQLtuple :=
  let escaped := strings.filterMap fun s =>
    let t := trimS s
    if t = "" then none else some t
  (joinSep "," (List.replicate escaped.length "?"), escaped)

/-- `Platform::sql_tuple`. -/
def sql_tuple : SQLtuple := ("", [])

/-- `Platform::get_label_sql_helper`: term-kind membership predicate for one
rule group. -/
def get_label_sql_helper (p : Platform) (ret : SQLtuple) (part1 part2 : String) :
    SQLtuple :=
  let types : List String :=
    (if p.has_param ("cb_labels_" ++ part1 ++ "_l") then ["label"] else []) ++
    (if p.has_param ("cb_labels_" ++ part1 ++ "_a") then ["alias"] else []) ++
    (if p.has_param ("cb_labels_" ++ part1 ++ "_d") then ["description"] else [])
  if types.isEmpty then ret
  else
    let tmp := prep_quote types
    (ret.1 ++ (" AND " ++ part2 ++ " IN (" ++ tmp.1 ++ ")"), ret.2 ++ tmp.2)

/-- One iteration of the `yes`-terms loop in `get_label_sql`. -/
def label_yes_step (p : Platform) (field : String) (langs_yes : List String)
    (ret : SQLtuple) (s : String) : SQLtuple :=
  let ret1 : SQLtuple := (ret.1 ++ (" AND " ++ field ++ " LIKE ?"), ret.2 ++ [s])
  if langs_yes.isEmpty then ret1
  else
    let tmp := prep_quote langs_yes
    let ret2 : SQLtuple :=
      (ret1.1 ++ (" AND term_language IN (" ++ tmp.1 ++ ")"), ret1.2 ++ tmp.2)
    get_label_sql_helper p ret2 "yes" "term_type"

/-- One iteration of the OR-group loop in `get_label_sql` (the source
iterates the `yes` terms here); the `Bool` is the `first` flag. -/
def label_any_step (p : Platform) (field : String) (langs_any : List String)
    (st : SQLtuple × Bool) (s : String) : SQLtuple × Bool :=
  let ret := st.1
  let ret : SQLtuple := if st.2 then ret else (ret.1 ++ " OR ", ret.2)
  let ret : SQLtuple := (ret.1 ++ (" ( " ++ field ++ " LIKE ?"), ret.2 ++ [s])
  let ret : SQLtuple :=
    if langs_any.isEmpty then ret
    else
      let tmp := prep_quote langs_any
      get_label_sql_helper p
        (ret.1 ++ (" AND term_language IN (" ++ tmp.1 ++ ")"), ret.2 ++ tmp.2)
        "any" "term_type"
  ((ret.1 ++ ")", ret.2), false)

/-- One iteration of the `no`-terms loop in `get_label_sql`. -/
def label_no_step (p : Platform) (field : String) (langs_no : List String)
    (ret : SQLtuple) (s : String) : SQLtuple :=
  let ret : SQLtuple :=
    (ret.1 ++ " AND NOT EXISTS (SELECT t2.term_full_entity_id FROM wb_terms t2 WHERE"
       ++ (" t2.term_full_entity_id=t1.term_full_entity_id AND t2.term_entity_type="
            ++ sqc ++ "item" ++ sqc),
     ret.2)
  let ret : SQLtuple := (ret.1 ++ (" AND t2." ++ field ++ " LIKE ?"), ret.2 ++ [s])
  let ret : SQLtuple :=
    if langs_no.isEmpty then ret
    else
      let tmp := prep_quote langs_no
      get_label_sql_helper p
        (ret.1 ++ (" AND t2.term_language IN (" ++ tmp.1 ++ ")"), ret.2 ++ tmp.2)
        "no" "t2.term_type"
  (ret.1 ++ ")", ret.2)

/-- The base clause of the label query. -/
def labelBase : String :=
  "SELECT DISTINCT term_full_entity_id FROM wb_terms t1 WHERE term_entity_type="
    ++ sqc ++ "item" ++ sqc

/-- `Platform::get_label_sql`. -/
def get_label_sql (p : Platform) : SQLtuple :=
  let yes := p.get_param_as_vec "labels_yes" '\n'
  let any := p.get_param_as_vec "labels_any" '\n'
  let no := p.get_param_as_vec "labels_no" '\n'
  if yes.length + any.length + no.length = 0 then ("", [])
  else
    let langs_yes := p.get_param_as_vec "langs_labels_yes" ','
    let langs_any := p.get_param_as_vec "langs_labels_any" ','
    let langs_no := p.get_param_as_vec "langs_labels_no" ','
    let field := "term_text"
    let ret : SQLtuple := (labelBase, [])
    let ret := yes.foldl (label_yes_step p field langs_yes) ret
    let ret :=
      if langs_any.isEmpty then ret
      else
        let st := yes.foldl (label_any_step p field langs_any)
          ((ret.1 ++ " AND (", ret.2), true)
        (st.1.1 ++ ")", st.1.2)
    let ret := no.foldl (label_no_step p field langs_no) ret
    ret

/-- `SourceDatabaseParameters`, field for field as constructed by
`Platform::db_params`. -/
structure SourceDatabaseParameters where
  combine : String
  only_new_since : Bool
  max_age : Option Int
  before : String
  after : String
  templates_yes : List String
  templates_any : List String
  templates_no : List String
  templates_yes_talk_page : Bool
  templates_any_talk_page : Bool
  templates_no_talk_page : Bool
  linked_from_all : List String
  linked_from_any : List String
  linked_from_none : List String
  links_to_all : List String
  links_to_any : List String
  links_to_none : List String
  last_edit_bot : String
  last_edit_anon : String
  last_edit_flagged : String
  gather_link_count : Bool
  page_image : String
  page_wikidata_item : String
  ores_type : String
  ores_prediction : String
  depth : Nat
  cat_pos : List String
  cat_neg : List String
  ores_prob_from : Option F32
  ores_prob_to : Option F32
  redirects : String
  minlinks : Option Nat
  maxlinks : Option Nat
  larger : Option Nat
  smaller : Option Nat
  wiki : Option String
  namespace_ids : List Nat
deriving DecidableEq, Repr

/-- `.map(|i| i.parse::<usize>().unwrap())` on an optional parameter:
`Except.error` is the unwrap panic on a present but unparsable value. -/
def mapUnwrapUsize (o : Option String) : Except Unit (Option Nat) :=
  match o with
  | none => .ok none
  | some s =>
    match parseUsize? s with
    | some n => .ok (some n)
    | none => .error ()

/-- The record built by `Platform::db_params` once the four `unwrap`ped
link/size fields are known. -/
def db_params_ok (p : Platform) (minlinks maxlinks larger smaller : Option Nat) :
    SourceDatabaseParameters :=
  let depth : Nat := (parseU16? ((p.get_param "depth").getD "0")).getD 0
  { combine :=
      match lookupKV p.form_parameters.params "combination" with
      | some x => if x = "union" then x else "subset"
      | none => "subset"
    only_new_since := p.has_param "only_new_since"
    max_age := (p.get_param "max_age").map fun x => (parseI64? x).getD 0
    before := p.get_param_blank "before"
    after := p.get_param_blank "after"
    templates_yes := p.get_param_as_vec "templates_yes" '\n'
    templates_any := p.get_param_as_vec "templates_any" '\n'
    templates_no := p.get_param_as_vec "templates_no" '\n'
    templates_yes_talk_page := p.has_param "templates_use_talk_yes"
    templates_any_talk_page := p.has_param "templates_use_talk_any"
    templates_no_talk_page := p.has_param "templates_use_talk_no"
    linked_from_all := p.get_param_as_vec "outlinks_yes" '\n'
    linked_from_any := p.get_param_as_vec "outlinks_any" '\n'
    linked_from_none := p.get_param_as_vec "outlinks_no" '\n'
    links_to_all := p.get_param_as_vec "links_to_all" '\n'
    links_to_any := p.get_param_as_vec "links_to_any" '\n'
    links_to_none := p.get_param_as_vec "links_to_no" '\n'
    last_edit_bot := p.get_param_default "edits[bots]" "both"
    last_edit_anon := p.get_param_default "edits[anons]" "both"
    last_edit_flagged := p.get_param_default "edits[flagged]" "both"
    gather_link_count := p.has_param "minlinks" || p.has_param "maxlinks"
    page_image := p.get_param_default "page_image" "any"
    page_wikidata_item := p.get_param_default "wikidata_item" "any"
    ores_type := p.get_param_blank "ores_type"
    ores_prediction := p.get_param_default "ores_prediction" "any"
    depth := depth
    cat_pos := p.get_param_as_vec "categories" '\n'
    cat_neg := p.get_param_as_vec "negcats" '\n'
    ores_prob_from :=
      (p.get_param "ores_prob_from").map fun x => (parseF32? x).getD (.finite 0)
    ores_prob_to :=
      (p.get_param "ores_prob_to").map fun x => (parseF32? x).getD (.finite 1)
    redirects := p.get_param_blank "show_redirects"
    minlinks := minlinks
    maxlinks := maxlinks
    larger := larger
    smaller := smaller
    wiki := p.get_main_wiki
    namespace_ids := p.form_parameters.ns }

/-- `Platform::db_params`; `Except.error` is a panic during construction
(one of the four `unwrap`ped link/size fields failed to parse). -/
def db_params (p : Platform) : Except Unit SourceDatabaseParameters :=
  match mapUnwrapUsize (p.get_param "minlinks"), mapUnwrapUsize (p.get_param "maxlinks"),
      mapUnwrapUsize (p.get_param "larger"), mapUnwrapUsize (p.get_param "smaller") with
  | .ok minlinks, .ok maxlinks, .ok larger, .ok smaller =>
    .ok (db_params_ok p minlinks maxlinks larger smaller)
  | _, _, _, _ => .error ()

/-- The `Combination` expression tree (`Not` is `L \ R`, set difference). -/
inductive Combination
  | none
  | source (s : String)
  | intersection (a b : Combination)
  | union (a b : Combination)
  | not (a b : Combination)
deriving DecidableEq, Repr

/-- `Platform::parse_combination_string` — a stub in the source: every
user-supplied combination string becomes `Source("")`. -/
def parse_combination_string (_p : Platform) (_s : String) : Combination :=
  Combination.source ""

/-- The loop body of the default-combination fold in
`Platform::get_combination`. -/
def combStep (comb : Combination) (source : String) : Combination :=
  if comb = Combination.none then Combination.source source
  else Combination.union (Combination.source source) comb

/-- `Platform::get_combination`: a user-supplied expression goes through the
stub parser; otherwise fold the available source names into a union chain. -/
def get_combination (p : Platform) (available_sources : List String) : Combination :=
  match p.get_param "source_combination" with
  | some combination_string => parse_combination_string p combination_string
  | none => available_sources.foldl combStep Combination.none

/-- Modelled from the spec: the page/result-set container (`PageList`,
`src/pagelist.rs` is not among the sources); the spec consumes it only
through `union`, `intersection` and `difference`, so pages are abstract
naturals. -/
structure PageList where
  pages : List Nat
deriving DecidableEq, Repr

/-- Modelled from the spec: in-place `PageList::union` with an optional
right side — an absent right side is tolerated and treated as an empty
contribution; in this pure model the operation always succeeds. -/
def PageList.union (a : PageList) (b : Option PageList) : Except Unit PageList :=
  .ok ⟨a.pages ++ (b.map PageList.pages).getD [] |>.dedup⟩

/-- Modelled from the spec: in-place `PageList::intersection` — both sides
are required to be present; an absent right side is an error (which
`combine_results` turns into "no result"). -/
def PageList.intersection (a : PageList) (b : Option PageList) : Except Unit PageList :=
  match b with
  | some l => .ok ⟨a.pages.filter fun x => x ∈ l.pages⟩
  | none => .error ()

/-- Modelled from the spec: in-place `PageList::difference` (`L \ R`) — an
absent right side is tolerated as empty. -/
def PageList.difference (a : PageList) (b : Option PageList) : Except Unit PageList :=
  .ok ⟨a.pages.filter fun x => x ∉ (b.map PageList.pages).getD []⟩

/-- `results.get(s)` followed by `to_owned`, flattened: the stored optional
result for a source name, absent when the name has no entry. -/
def lookupResult (results : List (String × Option PageList)) (s : String) :
    Option PageList :=
  (lookupKV results s).join

/-- `Platform::combine_results`.  `Except.error ()` is a panic: the source
`unwrap`s the left operand of every two-sided `Union`, `Intersection` and
`Not`, so an absent left side panics; a `?` on a failed set operation
returns `None` ("no result") instead. -/
def combine_results (results : List (String × Option PageList)) :
    Combination → Except Unit (Option PageList)
  | .none => .ok none
  | .source s => .ok (lookupResult results s)
  | .union a b =>
    match a, b with
    | .none, c => combine_results results c
    | c, .none => combine_results results c
    | c, d =>
      match combine_results results c with
      | .error e => .error e
      | .ok Option.none => .error ()
      | .ok (some r1) =>
        match combine_results results d with
        | .error e => .error e
        | .ok r2 =>
          match r1.union r2 with
          | .ok r => .ok (some r)
          | .error _ => .ok none
  | .intersection a b =>
    match a, b with
    | .none, _c => .ok none
    | _c, .none => .ok none
    | c, d =>
      match combine_results results c with
      | .error e => .error e
      | .ok Option.none => .error ()
      | .ok (some r1) =>
        match combine_results results d with
        | .error e => .error e
        | .ok r2 =>
          match r1.intersection r2 with
          | .ok r => .ok (some r)
          | .error _ => .ok none
  | .not a b =>
    match a, b with
    | .none, _c => .ok none
    | c, .none => combine_results results c
    | c, d =>
      match combine_results results c with
      | .error e => .error e
      | .ok Option.none => .error ()
      | .ok (some r1) =>
        match combine_results results d with
        | .error e => .error e
        | .ok r2 =>
          match r1.difference r2 with
          | .ok r => .ok (some r)
          | .error _ => .ok none

/-! ### Generic helper lemmas -/

/-- A fold preserves any invariant its step preserves. -/
theorem foldl_preserve {α β : Type} (P : α → Prop) (f : α → β → α)
    (hf : ∀ a b, P a → P (f a b)) : ∀ (l : List β) (a : α), P a → P (l.foldl f a)
  | [], _, h => h
  | b :: l, a, h => foldl_preserve P f hf l (f a b) (hf a b h)

/-- Number of `?` placeholders in a fragment's text. -/
def countQ (s : String) : Nat := s.data.count '?'

/-- The SQLFragment invariant: as many placeholders as bound values. -/
def sqlOk (t : SQLtuple) : Prop := countQ t.1 = t.2.length

instance (t : SQLtuple) : Decidable (sqlOk t) :=
  inferInstanceAs (Decidable (_ = _))

theorem countQ_append (a b : String) : countQ (a ++ b) = countQ a + countQ b := by
  simp [countQ, String.data_append, List.count_append]

theorem countQ_joinRep : ∀ n : Nat, countQ (joinSep "," (List.replicate n "?")) = n
  | 0 => rfl
  | 1 => rfl
  | Nat.succ (Nat.succ n) => by
    have ih := countQ_joinRep (Nat.succ n)
    simp only [List.replicate_succ, joinSep] at ih ⊢
    rw [countQ_append, countQ_append]
    have c1 : countQ "?" = 1 := by decide
    have c2 : countQ "," = 0 := by decide
    omega

/-- `prep_quote` satisfies the placeholder invariant. -/
theorem sqlOk_prep_quote (l : List String) : sqlOk (prep_quote l) := by
  unfold prep_quote sqlOk
  exact countQ_joinRep _

/-- `append_sql` concatenates text and values componentwise. -/
theorem append_sql_eq (a b : SQLtuple) :
    append_sql a b = (a.1 ++ b.1, a.2 ++ b.2) := rfl

/-- `append_sql` preserves the placeholder invariant. -/
theorem sqlOk_append_sql {a b : SQLtuple} (ha : sqlOk a) (hb : sqlOk b) :
    sqlOk (append_sql a b) := by
  unfold sqlOk at *
  show countQ (a.1 ++ b.1) = (a.2 ++ b.2).length
  rw [countQ_append, List.length_append, ha, hb]

theorem sqlOk_helper_core (ret : SQLtuple) (part2 : String) (types : List String)
    (h2 : countQ part2 = 0) (hret : sqlOk ret) :
    sqlOk
      (if types.isEmpty then ret
       else
         (ret.1 ++ (" AND " ++ part2 ++ " IN (" ++ (prep_quote types).1 ++ ")"),
          ret.2 ++ (prep_quote types).2)) := by
  split
  · exact hret
  · have hq := sqlOk_prep_quote types
    unfold sqlOk at *
    have c1 : countQ " AND " = 0 := by decide
    have c2 : countQ " IN (" = 0 := by decide
    have c3 : countQ ")" = 0 := by decide
    simp only [countQ_append, List.length_append, hret, h2, hq, c1, c2, c3]
    omega

theorem sqlOk_get_label_sql_helper (p : Platform) {ret : SQLtuple}
    (part1 : String) {part2 : String} (h2 : countQ part2 = 0) (hret : sqlOk ret) :
    sqlOk (get_label_sql_helper p ret part1 part2) :=
  sqlOk_helper_core ret part2 _ h2 hret

theorem sqlOk_label_yes_step (p : Platform) {field : String} (hf : countQ field = 0)
    (langs_yes : List String) {ret : SQLtuple} (s : String) (hret : sqlOk ret) :
    sqlOk (label_yes_step p field langs_yes ret s) := by
  have c1 : countQ " LIKE ?" = 1 := by decide
  have c2 : countQ " AND " = 0 := by decide
  have c3 : countQ " AND term_language IN (" = 0 := by decide
  have c4 : countQ ")" = 0 := by decide
  have h1 : sqlOk (ret.1 ++ (" AND " ++ field ++ " LIKE ?"), ret.2 ++ [s]) := by
    unfold sqlOk at *
    simp only [countQ_append, List.length_append, hret, hf, c1, c2, List.length_cons,
      List.length_nil]
  simp only [label_yes_step]
  split
  · exact h1
  · apply sqlOk_get_label_sql_helper p "yes" (by decide)
    have hq := sqlOk_prep_quote langs_yes
    unfold sqlOk at h1 hq ⊢
    simp only [countQ_append, List.length_append, h1, hq, c3, c4]
    omega

theorem sqlOk_addZero {t : SQLtuple} (h : sqlOk t) {s : String} (hs : countQ s = 0) :
    sqlOk (t.1 ++ s, t.2) := by
  unfold sqlOk at *
  show countQ (t.1 ++ s) = t.2.length
  rw [countQ_append, h, hs]
  omega

theorem sqlOk_addOne {t : SQLtuple} (h : sqlOk t) {s : String} (hs : countQ s = 1)
    (v : String) : sqlOk (t.1 ++ s, t.2 ++ [v]) := by
  unfold sqlOk at *
  show countQ (t.1 ++ s) = (t.2 ++ [v]).length
  rw [countQ_append, List.length_append, h, hs, List.length_singleton]

theorem sqlOk_addFrag {t : SQLtuple} (h : sqlOk t) {pre post : String}
    (hpre : countQ pre = 0) (hpost : countQ post = 0) {u : SQLtuple} (hu : sqlOk u) :
    sqlOk (t.1 ++ (pre ++ u.1 ++ post), t.2 ++ u.2) := by
  unfold sqlOk at *
  show countQ (t.1 ++ (pre ++ u.1 ++ post)) = (t.2 ++ u.2).length
  simp only [countQ_append, List.length_append, h, hu, hpre, hpost]
  omega

theorem sqlOk_label_any_step (p : Platform) {field : String} (hf : countQ field = 0)
    (langs_any : List String) {st : SQLtuple × Bool} (s : String) (hst : sqlOk st.1) :
    sqlOk (label_any_step p field langs_any st s).1 := by
  have h0 : sqlOk (if st.2 then st.1 else (st.1.1 ++ " OR ", st.1.2)) := by
    split
    · exact hst
    · exact sqlOk_addZero hst (by decide)
  have hlike : countQ (" ( " ++ field ++ " LIKE ?") = 1 := by
    rw [countQ_append, countQ_append, hf]
    decide
  have h1 := sqlOk_addOne h0 hlike s
  simp only [label_any_step]
  split
  · exact sqlOk_addZero h1 (by decide)
  · apply sqlOk_addZero
    · apply sqlOk_get_label_sql_helper p "any" (by decide)
      exact sqlOk_addFrag h1 (by decide) (by decide) (sqlOk_prep_quote langs_any)
    · decide

theorem sqlOk_label_no_step (p : Platform) {field : String} (hf : countQ field = 0)
    (langs_no : List String) {ret : SQLtuple} (s : String) (hret : sqlOk ret) :
    sqlOk (label_no_step p field langs_no ret s) := by
  have h00 := sqlOk_addZero hret
    (show countQ
      " AND NOT EXISTS (SELECT t2.term_full_entity_id FROM wb_terms t2 WHERE" = 0
      by decide)
  have h0 := sqlOk_addZero h00
    (show countQ
      (" t2.term_full_entity_id=t1.term_full_entity_id AND t2.term_entity_type="
        ++ sqc ++ "item" ++ sqc) = 0
      by decide)
  have hlike : countQ (" AND t2." ++ field ++ " LIKE ?") = 1 := by
    rw [countQ_append, countQ_append, hf]
    decide
  have h1 : sqlOk
      ((ret.1 ++ " AND NOT EXISTS (SELECT t2.term_full_entity_id FROM wb_terms t2 WHERE"
          ++ (" t2.term_full_entity_id=t1.term_full_entity_id AND t2.term_entity_type="
               ++ sqc ++ "item" ++ sqc)) ++ (" AND t2." ++ field ++ " LIKE ?"),
       ret.2 ++ [s]) := sqlOk_addOne h0 hlike s
  simp only [label_no_step]
  split
  · exact sqlOk_addZero h1 (by decide)
  · apply sqlOk_addZero
    · apply sqlOk_get_label_sql_helper p "no" (by decide)
      exact sqlOk_addFrag h1 (by decide) (by decide) (sqlOk_prep_quote langs_no)
    · decide

theorem sqlOk_get_label_sql (p : Platform) : sqlOk (get_label_sql p) := by
  simp only [get_label_sql]
  split
  · decide
  · apply foldl_preserve sqlOk _
      (fun a b ha => sqlOk_label_no_step p (by decide) _ b ha)
    split
    · apply foldl_preserve sqlOk _
        (fun a b ha => sqlOk_label_yes_step p (by decide) _ b ha)
      decide
    · apply sqlOk_addZero _ (by decide)
      apply foldl_preserve (fun st : SQLtuple × Bool => sqlOk st.1) _
        (fun a b ha => sqlOk_label_any_step p (by decide) _ b ha)
      apply sqlOk_addZero _ (by decide)
      apply foldl_preserve sqlOk _
        (fun a b ha => sqlOk_label_yes_step p (by decide) _ b ha)
      decide

/-! ### Claim C4 -/

/-- C4: every SQLFragment produced by `prep_quote`, by `append_sql` (from
fragments that themselves satisfy the invariant), and by `get_label_sql`
has as many `?` placeholders in its text as bound values, and concatenation
appends text and values componentwise, never reordering. -/
theorem claim_c4_sql_fragment_invariant :
    (∀ l : List String, sqlOk (prep_quote l)) ∧
    (∀ a b : SQLtuple, sqlOk a → sqlOk b →
      sqlOk (append_sql a b) ∧ (append_sql a b).1 = a.1 ++ b.1 ∧
        (append_sql a b).2 = a.2 ++ b.2) ∧
    (∀ p : Platform, sqlOk (get_label_sql p)) :=
  ⟨sqlOk_prep_quote, fun _ _ ha hb => ⟨sqlOk_append_sql ha hb, rfl, rfl⟩,
   sqlOk_get_label_sql⟩

/-- Witness for C4 at concrete fragments and a concrete platform. -/
theorem claim_c4_sql_fragment_invariant_witness :
    sqlOk (prep_quote ["", " a ", "b"]) ∧
    sqlOk (append_sql ("x = ?", ["v"]) ("y IN (?,?)", ["a", "b"])) ∧
    sqlOk (get_label_sql ⟨⟨[("labels_yes", "Dog"), ("labels_no", "Cat")], []⟩⟩) :=
  ⟨claim_c4_sql_fragment_invariant.1 _,
   (claim_c4_sql_fragment_invariant.2.1 _ _ (by decide) (by decide)).1,
   claim_c4_sql_fragment_invariant.2.2 _⟩

/-! ### Claim C9 -/

/-- C9: with `labels_yes = ["Cat"]`, `langs_labels_yes = ["en"]`, no
term-kind toggles and no `any`/`no` terms or languages, `get_label_sql`
produces exactly one text-match placeholder and one language-membership
placeholder, with bound values `["Cat", "en"]` in that order. -/
theorem claim_c9_label_fragment_example :
    get_label_sql ⟨⟨[("labels_yes", "Cat"), ("langs_labels_yes", "en")], []⟩⟩ =
      (labelBase ++ " AND term_text LIKE ?" ++ " AND term_language IN (?)",
       ["Cat", "en"]) ∧
    countQ (get_label_sql
      ⟨⟨[("labels_yes", "Cat"), ("langs_labels_yes", "en")], []⟩⟩).1 = 2 :=
  ⟨by decide, by decide⟩

/-! ### Combination-evaluation lemmas -/

deriving instance DecidableEq for Except

theorem combine_union_eq (results : List (String × Option PageList))
    {c d : Combination} (hc : c ≠ .none) (hd : d ≠ .none) :
    combine_results results (.union c d) =
      (match combine_results results c with
       | .error e => .error e
       | .ok Option.none => .error ()
       | .ok (some r1) =>
         match combine_results results d with
         | .error e => .error e
         | .ok r2 =>
           match r1.union r2 with
           | .ok r => .ok (some r)
           | .error _ => .ok none) := by
  cases c <;> cases d <;> first
    | exact absurd rfl hc
    | exact absurd rfl hd
    | rfl

theorem combine_intersection_eq (results : List (String × Option PageList))
    {c d : Combination} (hc : c ≠ .none) (hd : d ≠ .none) :
    combine_results results (.intersection c d) =
      (match combine_results results c with
       | .error e => .error e
       | .ok Option.none => .error ()
       | .ok (some r1) =>
         match combine_results results d with
         | .error e => .error e
         | .ok r2 =>
           match r1.intersection r2 with
           | .ok r => .ok (some r)
           | .error _ => .ok none) := by
  cases c <;> cases d <;> first
    | exact absurd rfl hc
    | exact absurd rfl hd
    | rfl

theorem combine_not_eq (results : List (String × Option PageList))
    {c d : Combination} (hc : c ≠ .none) (hd : d ≠ .none) :
    combine_results results (.not c d) =
      (match combine_results results c with
       | .error e => .error e
       | .ok Option.none => .error ()
       | .ok (some r1) =>
         match combine_results results d with
         | .error e => .error e
         | .ok r2 =>
           match r1.difference r2 with
           | .ok r => .ok (some r)
           | .error _ => .ok none) := by
  cases c <;> cases d <;> first
    | exact absurd rfl hc
    | exact absurd rfl hd
    | rfl

/-! ### Claim C5 -/

/-- C5: the absorption rules of `combine_results`: `Union` with an `Empty`
side evaluates to the other side, `Intersection` with an `Empty` side and
`Difference` with an `Empty` left side evaluate to nothing, `Difference`
with an `Empty` right side evaluates to its left side, and `Empty`
evaluates to nothing. -/
theorem claim_c5_absorption_rules :
    ∀ (results : List (String × Option PageList)) (X : Combination),
      combine_results results (.union .none X) = combine_results results X ∧
      combine_results results (.union X .none) = combine_results results X ∧
      combine_results results (.intersection .none X) = .ok none ∧
      combine_results results (.intersection X .none) = .ok none ∧
      combine_results results (.not .none X) = .ok none ∧
      combine_results results (.not X .none) = combine_results results X ∧
      combine_results results .none = .ok none := by
  intro results X
  refine ⟨?_, ?_, ?_, ?_, ?_, ?_, rfl⟩ <;> cases X <;> rfl

/-! ### Claim C1 -/

/-- C1 counterexample: with an empty PartialResultMap, the left side of
`Union(Leaf "a", Leaf "b")` is an unmet operand requirement, and evaluation
panics (the source `unwrap`s it) instead of returning an absent result. -/
theorem claim_c1_counterexample :
    combine_results [] (.union (.source "a") (.source "b")) = .error () ∧
    combine_results [] (.union (.source "a") (.source "b")) ≠ .ok none :=
  ⟨rfl, by decide⟩

/-- C1 (amended): when the left operand of a two-sided `Union`,
`Intersection` or `Difference` evaluates to absent, `combine_results`
panics; when only the right side is absent, `Intersection` yields an
absent result without failing, and `Union`/`Difference` treat it as an
empty contribution and yield a present result. -/
theorem claim_c1_unmet_operand_behaviour :
    ∀ (results : List (String × Option PageList)) (c d : Combination),
      c ≠ .none → d ≠ .none →
      (combine_results results c = .ok none →
        combine_results results (.union c d) = .error () ∧
        combine_results results (.intersection c d) = .error () ∧
        combine_results results (.not c d) = .error ()) ∧
      (∀ r1 : PageList, combine_results results c = .ok (some r1) →
        combine_results results d = .ok none →
        combine_results results (.intersection c d) = .ok none ∧
        (∃ u, combine_results results (.union c d) = .ok (some u)) ∧
        (∃ w, combine_results results (.not c d) = .ok (some w))) := by
  intro results c d hc hd
  constructor
  · intro h
    rw [combine_union_eq results hc hd, combine_intersection_eq results hc hd,
      combine_not_eq results hc hd, h]
    exact ⟨rfl, rfl, rfl⟩
  · intro r1 h1 h2
    rw [combine_union_eq results hc hd, combine_intersection_eq results hc hd,
      combine_not_eq results hc hd, h1, h2]
    exact ⟨rfl,
      ⟨⟨(r1.pages ++ (((none : Option PageList)).map PageList.pages).getD []).dedup⟩,
        rfl⟩,
      ⟨⟨r1.pages.filter fun x =>
          x ∉ (((none : Option PageList)).map PageList.pages).getD []⟩, rfl⟩⟩

/-- Witness for C1 at concrete inputs: `results = []` exercises the
panicking left side, `results = [("a", some ⟨[1]⟩)]` the tolerated and the
intersection-absent right side. -/
theorem claim_c1_unmet_operand_behaviour_witness :
    (combine_results [] (.union (.source "a") (.source "b")) = .error () ∧
     combine_results [] (.intersection (.source "a") (.source "b")) = .error () ∧
     combine_results [] (.not (.source "a") (.source "b")) = .error ()) ∧
    (combine_results [("a", some ⟨[1]⟩)]
        (.intersection (.source "a") (.source "b")) = .ok none ∧
     (∃ u, combine_results [("a", some ⟨[1]⟩)]
        (.union (.source "a") (.source "b")) = .ok (some u)) ∧
     (∃ w, combine_results [("a", some ⟨[1]⟩)]
        (.not (.source "a") (.source "b")) = .ok (some w))) :=
  ⟨(claim_c1_unmet_operand_behaviour [] (.source "a") (.source "b")
      (by decide) (by decide)).1 rfl,
   (claim_c1_unmet_operand_behaviour [("a", some ⟨[1]⟩)] (.source "a") (.source "b")
      (by decide) (by decide)).2 ⟨[1]⟩ rfl rfl⟩

/-! ### Claim C6 -/

theorem combStep_ne_none (comb : Combination) (s : String) :
    combStep comb s ≠ Combination.none := by
  unfold combStep
  split <;> simp

theorem foldl_combStep_ne_none :
    ∀ (l : List String) (acc : Combination), acc ≠ Combination.none →
      l.foldl combStep acc ≠ Combination.none
  | [], _, h => h
  | s :: l, acc, _ =>
    foldl_combStep_ne_none l (combStep acc s) (combStep_ne_none acc s)

/-- C6: with no user-supplied combination expression, `get_combination`
folds the eligible names into a right-nested union chain: the empty list
gives `Empty`, the first name a bare `Leaf`, and each later name is
unioned with the accumulator, new name on the left. -/
theorem claim_c6_default_combination (p : Platform)
    (h : p.get_param "source_combination" = none) :
    get_combination p [] = Combination.none ∧
    (∀ s : String, get_combination p [s] = Combination.source s) ∧
    (∀ (names : List String) (s : String), names ≠ [] →
      get_combination p (names ++ [s]) =
        Combination.union (Combination.source s) (get_combination p names)) := by
  refine ⟨?_, ?_, ?_⟩
  · simp [get_combination, h]
  · intro s
    simp [get_combination, h, combStep]
  · intro names s hne
    simp only [get_combination, h]
    rw [List.foldl_append]
    have hnn : names.foldl combStep Combination.none ≠ Combination.none := by
      cases names with
      | nil => exact absurd rfl hne
      | cons a l =>
        exact foldl_combStep_ne_none l (combStep Combination.none a)
          (combStep_ne_none Combination.none a)
    show (if names.foldl combStep Combination.none = Combination.none
        then Combination.source s
        else Combination.union (Combination.source s)
          (names.foldl combStep Combination.none)) = _
    rw [if_neg hnn]

/-- Witness for C6 at a concrete platform and name lists. -/
theorem claim_c6_default_combination_witness :
    get_combination ⟨⟨[], []⟩⟩ [] = Combination.none ∧
    get_combination ⟨⟨[], []⟩⟩ ["a"] = Combination.source "a" ∧
    get_combination ⟨⟨[], []⟩⟩ (["a"] ++ ["b"]) =
      Combination.union (Combination.source "b") (get_combination ⟨⟨[], []⟩⟩ ["a"]) :=
  ⟨(claim_c6_default_combination ⟨⟨[], []⟩⟩ rfl).1,
   (claim_c6_default_combination ⟨⟨[], []⟩⟩ rfl).2.1 "a",
   (claim_c6_default_combination ⟨⟨[], []⟩⟩ rfl).2.2 ["a"] "b" (by decide)⟩

/-! ### Claim C10 -/

/-- C10: whenever `source_combination` is present with a non-blank value,
the stub parser makes the combination `Leaf("")` regardless of the string's
content, and evaluation over any PartialResultMap without an entry for the
empty-string name yields an absent result. -/
theorem claim_c10_source_combination_stub (p : Platform) (s : String)
    (h : p.get_param "source_combination" = some s)
    (avail : List String) (results : List (String × Option PageList))
    (hres : lookupKV results "" = none) :
    get_combination p avail = Combination.source "" ∧
    combine_results results (get_combination p avail) = .ok none := by
  have h1 : get_combination p avail = Combination.source "" := by
    simp [get_combination, h, parse_combination_string]
  refine ⟨h1, ?_⟩
  rw [h1]
  show Except.ok (lookupResult results "") = _
  simp [lookupResult, hres]

/-- Witness for C10 at a concrete platform, result map and string. -/
theorem claim_c10_source_combination_stub_witness :
    get_combination ⟨⟨[("source_combination", "db AND manual")], []⟩⟩ ["db"] =
      Combination.source "" ∧
    combine_results [("db", some ⟨[1, 2]⟩)]
      (get_combination ⟨⟨[("source_combination", "db AND manual")], []⟩⟩ ["db"]) =
      .ok none :=
  claim_c10_source_combination_stub ⟨⟨[("source_combination", "db AND manual")], []⟩⟩
    "db AND manual" (by decide) ["db"] [("db", some ⟨[1, 2]⟩)] (by decide)

/-! ### Claim C2 -/

/-- Success test for an `Except` value. -/
def isOkE {ε α : Type} : Except ε α → Bool
  | .ok _ => true
  | .error _ => false

theorem isOkE_ok {ε α : Type} {e : Except ε α} (h : isOkE e = true) :
    ∃ x, e = .ok x := by
  cases e with
  | error f => exact absurd h (by simp [isOkE])
  | ok x => exact ⟨x, rfl⟩

/-- The four link/size parameters are each absent or parsable (the
condition under which `db_params` does not panic). -/
def linkFieldsOk (p : Platform) : Prop :=
  isOkE (mapUnwrapUsize (p.get_param "minlinks")) = true ∧
  isOkE (mapUnwrapUsize (p.get_param "maxlinks")) = true ∧
  isOkE (mapUnwrapUsize (p.get_param "larger")) = true ∧
  isOkE (mapUnwrapUsize (p.get_param "smaller")) = true

instance (p : Platform) : Decidable (linkFieldsOk p) :=
  inferInstanceAs (Decidable (_ ∧ _ ∧ _ ∧ _))

/-- C2 counterexample: a present but unparsable `minlinks` makes the
FilterCriteria build panic (`unwrap`), instead of degrading to a default. -/
theorem claim_c2_counterexample :
    db_params ⟨⟨[("minlinks", "x")], []⟩⟩ = .error () := rfl

/-- C2 (amended): the build succeeds whenever each of `minlinks`,
`maxlinks`, `larger`, `smaller` is absent or parsable, and then unparsable
`depth`, `max_age`, `ores_prob_from`, `ores_prob_to` degrade to their
defaults (`0`, `0`, `0.0`, `1.0`); but a present unparsable value in any of
the four `unwrap`ped fields panics, aborting the whole build. -/
theorem claim_c2_db_params_behaviour :
    ∀ p : Platform,
      (linkFieldsOk p → ∃ r, db_params p = .ok r ∧
        (∀ s, p.get_param "depth" = some s → parseU16? s = none → r.depth = 0) ∧
        (∀ s, p.get_param "max_age" = some s → parseI64? s = none →
          r.max_age = some 0) ∧
        (∀ s, p.get_param "ores_prob_from" = some s → parseF32? s = none →
          r.ores_prob_from = some (F32.finite 0)) ∧
        (∀ s, p.get_param "ores_prob_to" = some s → parseF32? s = none →
          r.ores_prob_to = some (F32.finite 1))) ∧
      (¬ linkFieldsOk p → db_params p = .error ()) := by
  intro p
  constructor
  · intro hok
    obtain ⟨h1, h2, h3, h4⟩ := hok
    obtain ⟨a, ha⟩ := isOkE_ok h1
    obtain ⟨b, hb⟩ := isOkE_ok h2
    obtain ⟨c, hc⟩ := isOkE_ok h3
    obtain ⟨d, hd⟩ := isOkE_ok h4
    refine ⟨db_params_ok p a b c d, ?_, ?_, ?_, ?_, ?_⟩
    · unfold db_params
      rw [ha, hb, hc, hd]
    · intro s hs hp
      show (parseU16? ((p.get_param "depth").getD "0")).getD 0 = 0
      rw [hs]
      show (parseU16? s).getD 0 = 0
      rw [hp]
      rfl
    · intro s hs hp
      show (p.get_param "max_age").map (fun x => (parseI64? x).getD 0) = some 0
      rw [hs]
      show some ((parseI64? s).getD 0) = some 0
      rw [hp]
      rfl
    · intro s hs hp
      show (p.get_param "ores_prob_from").map
        (fun x => (parseF32? x).getD (.finite 0)) = some (F32.finite 0)
      rw [hs]
      show some ((parseF32? s).getD (.finite 0)) = some (F32.finite 0)
      rw [hp]
      rfl
    · intro s hs hp
      show (p.get_param "ores_prob_to").map
        (fun x => (parseF32? x).getD (.finite 1)) = some (F32.finite 1)
      rw [hs]
      show some ((parseF32? s).getD (.finite 1)) = some (F32.finite 1)
      rw [hp]
      rfl
  · intro hnot
    unfold db_params
    cases hm : mapUnwrapUsize (p.get_param "minlinks") <;>
      cases hx : mapUnwrapUsize (p.get_param "maxlinks") <;>
        cases hl : mapUnwrapUsize (p.get_param "larger") <;>
          cases hsm : mapUnwrapUsize (p.get_param "smaller") <;>
            first
              | rfl
              | exact absurd
                  ⟨by rw [hm]; rfl, by rw [hx]; rfl, by rw [hl]; rfl,
                   by rw [hsm]; rfl⟩ hnot

/-- Witness for C2 at concrete parameter maps: one with every degradable
field unparsable (build succeeds with the defaults), one with an
unparsable `larger` (build panics). -/
theorem claim_c2_db_params_behaviour_witness :
    (∃ r, db_params ⟨⟨[("depth", "x"), ("max_age", "y"), ("ores_prob_from", "z"),
        ("ores_prob_to", "w"), ("minlinks", "3")], []⟩⟩ = .ok r ∧
      r.depth = 0 ∧ r.max_age = some 0 ∧ r.ores_prob_from = some (F32.finite 0) ∧
      r.ores_prob_to = some (F32.finite 1)) ∧
    db_params ⟨⟨[("larger", "big")], []⟩⟩ = .error () := by
  constructor
  · obtain ⟨r, hr, hdepth, hage, hfrom, hto⟩ :=
      (claim_c2_db_params_behaviour ⟨⟨[("depth", "x"), ("max_age", "y"),
        ("ores_prob_from", "z"), ("ores_prob_to", "w"), ("minlinks", "3")], []⟩⟩).1
        (by decide)
    exact ⟨r, hr, hdepth "x" (by decide) (by decide), hage "y" (by decide) (by decide),
      hfrom "z" (by decide) (by decide), hto "w" (by decide) (by decide)⟩
  · exact (claim_c2_db_params_behaviour ⟨⟨[("larger", "big")], []⟩⟩).2 (by decide)

/-! ### Association-list lemmas -/

theorem lookupKV_append {α : Type} (m m' : List (String × α)) (k : String) :
    lookupKV (m ++ m') k =
      match lookupKV m k with
      | some v => some v
      | none => lookupKV m' k := by
  induction m with
  | nil => rfl
  | cons p t ih =>
    obtain ⟨a, b⟩ := p
    show (if a = k then some b else lookupKV (t ++ m') k) = _
    by_cases hak : a = k
    · simp [lookupKV, hak]
    · simp [lookupKV, hak, ih]

theorem lookupKV_eq_none_of_not_hasKey {α : Type} {m : List (String × α)} {k : String}
    (h : hasKeyKV m k = false) : lookupKV m k = none := by
  unfold hasKeyKV at h
  cases hl : lookupKV m k with
  | none => rfl
  | some v => rw [hl] at h; simp at h

theorem lookupKV_replace_self {α : Type} (m : List (String × α)) (k : String) (v : α)
    (h : hasKeyKV m k = true) :
    lookupKV (m.map fun p => if p.1 = k then (k, v) else p) k = some v := by
  induction m with
  | nil => simp [hasKeyKV, lookupKV] at h
  | cons p t ih =>
    obtain ⟨a, b⟩ := p
    by_cases hak : a = k
    · subst hak
      simp only [List.map_cons]
      simp [lookupKV]
    · have ht : hasKeyKV t k = true := by
        unfold hasKeyKV at h ⊢
        rw [show lookupKV ((a, b) :: t) k = lookupKV t k from by
          simp [lookupKV, hak]] at h
        exact h
      simp only [List.map_cons]
      rw [show ((if (a, b).1 = k then (k, v) else (a, b))) = (a, b) from by simp [hak]]
      show (if a = k then some b else _) = some v
      rw [if_neg hak]
      exact ih ht

theorem lookupKV_replace_ne {α : Type} (m : List (String × α)) (k k' : String) (v : α)
    (h : k' ≠ k) :
    lookupKV (m.map fun p => if p.1 = k then (k, v) else p) k' = lookupKV m k' := by
  induction m with
  | nil => rfl
  | cons p t ih =>
    obtain ⟨a, b⟩ := p
    by_cases hak : a = k
    · subst hak
      simp only [List.map_cons, if_pos rfl]
      show (if a = k' then some v else _) = (if a = k' then some b else _)
      rw [if_neg (fun hk => h hk.symm), if_neg (fun hk => h hk.symm)]
      exact ih
    · simp only [List.map_cons, if_neg hak]
      show (if a = k' then some b else _) = (if a = k' then some b else _)
      by_cases hak' : a = k'
      · rw [if_pos hak', if_pos hak']
      · rw [if_neg hak', if_neg hak']
        exact ih

theorem lookupKV_insertKV_self {α : Type} (m : List (String × α)) (k : String) (v : α) :
    lookupKV (insertKV m k v) k = some v := by
  unfold insertKV
  split
  · exact lookupKV_replace_self m k v (by assumption)
  · rw [lookupKV_append]
    rw [lookupKV_eq_none_of_not_hasKey (by simp_all)]
    simp [lookupKV]

theorem lookupKV_insertKV_ne {α : Type} (m : List (String × α)) (k k' : String) (v : α)
    (h : k' ≠ k) : lookupKV (insertKV m k v) k' = lookupKV m k' := by
  unfold insertKV
  split
  · exact lookupKV_replace_ne m k k' v h
  · rw [lookupKV_append]
    cases hl : lookupKV m k' with
    | some w => rfl
    | none =>
      show (if k = k' then some v else lookupKV [] k') = none
      rw [if_neg (fun hk => h hk.symm)]
      rfl

/-! ### Legacy-normalization lemmas -/

theorem set_param_lookup_ne (fp : FormParameters) (k1 v k : String) (h : k ≠ k1) :
    lookupKV (fp.set_param k1 v).params k = lookupKV fp.params k :=
  lookupKV_insertKV_ne fp.params k1 k v h

theorem fallback_lookup_ne (fp : FormParameters) (kp kf k : String) (h : k ≠ kp) :
    lookupKV (fp.fallback kp kf).params k = lookupKV fp.params k := by
  unfold FormParameters.fallback
  split
  · rfl
  · split
    · split
      · exact set_param_lookup_ne fp kp _ k h
      · rfl
    · rfl

theorem fallback_ns (fp : FormParameters) (kp kf : String) :
    (fp.fallback kp kf).ns = fp.ns := by
  unfold FormParameters.fallback
  split
  · rfl
  · split
    · split <;> rfl
    · rfl

theorem fallback_lookup_same (fp : FormParameters) (kp kf : String) (h : kp ≠ kf) :
    lookupKV (fp.fallback kp kf).params kf = lookupKV fp.params kf := by
  unfold FormParameters.fallback
  split
  · rfl
  · split
    · split
      · exact set_param_lookup_ne fp kp _ kf (fun hk => h hk.symm)
      · rfl
    · rfl

theorem ns_legacy_step (fp : FormParameters) (t k1 v : String) :
    (legacy_step fp t k1 v).ns = fp.ns := by
  unfold legacy_step
  split <;> rfl

theorem lookup_legacy_step_ne (fp : FormParameters) (t k1 v k : String) (h : k ≠ k1) :
    lookupKV (legacy_step fp t k1 v).params k = lookupKV fp.params k := by
  unfold legacy_step
  split
  · exact set_param_lookup_ne fp k1 v k h
  · rfl

theorem params_ns_step (fp : FormParameters) :
    (legacy_ns_star fp).params = fp.params := by
  unfold legacy_ns_star
  split
  · split <;> rfl
  · rfl

theorem ns_step_eq (fp : FormParameters) :
    (legacy_ns_star fp).ns =
      (if fp.ns = [] ∧ lookupKV fp.params "ns" = some "*" then insertNat fp.ns 0
       else fp.ns) := by
  unfold legacy_ns_star
  split
  · split
    · rename_i hc hl
      rw [if_pos ⟨hc.2, hl⟩]
    · rename_i hc hl
      rw [if_neg (fun hh => hl hh.2)]
  · rename_i hc
    rw [if_neg (fun hh =>
      hc ⟨by unfold FormParameters.has_param hasKeyKV; rw [hh.2]; rfl, hh.1⟩)]

/-- The namespace set produced by legacy normalization: the legacy `ns=*`
rule adds `0` exactly when the derived set is empty and `ns` maps to `*`. -/
theorem legacy_ns_eq (fp : FormParameters) :
    (FormParameters.legacy_parameters fp).ns =
      (if fp.ns = [] ∧ lookupKV fp.params "ns" = some "*" then insertNat fp.ns 0
       else fp.ns) := by
  simp only [FormParameters.legacy_parameters]
  rw [ns_legacy_step, ns_legacy_step, ns_legacy_step, ns_legacy_step,
    ns_legacy_step, ns_step_eq, fallback_ns, fallback_ns]
  rw [show lookupKV ((fp.fallback "language" "lang").fallback "categories"
      "cats").params "ns" = lookupKV fp.params "ns" from by
    rw [fallback_lookup_ne _ _ _ _ (by decide), fallback_lookup_ne _ _ _ _ (by decide)]]

/-- Legacy normalization leaves every key other than the four modern targets
(`language`, `categories`, `combination`, `wikidata_item`) untouched. -/
theorem legacy_lookup_preserved (fp : FormParameters) (k : String)
    (h1 : k ≠ "language") (h2 : k ≠ "categories") (h3 : k ≠ "combination")
    (h4 : k ≠ "wikidata_item") :
    lookupKV (FormParameters.legacy_parameters fp).params k = lookupKV fp.params k := by
  simp only [FormParameters.legacy_parameters]
  rw [lookup_legacy_step_ne _ _ _ _ _ h4, lookup_legacy_step_ne _ _ _ _ _ h4,
    lookup_legacy_step_ne _ _ _ _ _ h4, lookup_legacy_step_ne _ _ _ _ _ h3,
    lookup_legacy_step_ne _ _ _ _ _ h3, params_ns_step,
    fallback_lookup_ne _ _ _ _ h2, fallback_lookup_ne _ _ _ _ h1]

/-! ### Namespace-set membership lemmas -/

theorem mem_insertNat {ns : List Nat} {n m : Nat} :
    m ∈ insertNat ns n ↔ m ∈ ns ∨ m = n := by
  unfold insertNat
  split
  · rename_i hmem
    constructor
    · exact Or.inl
    · intro h
      rcases h with h | h
      · exact h
      · rw [h]; exact hmem
  · simp [List.mem_append]

theorem mem_nsStepFn {ns : List Nat} {kv : String × String} {n : Nat} :
    n ∈ nsStepFn ns kv ↔ n ∈ ns ∨ (kv.2 = "1" ∧ nsKeyNum? kv.1 = some n) := by
  unfold nsStepFn
  split
  · rename_i h1
    rw [if_neg (fun hh => by rw [h1] at hh; exact absurd hh.2 (by decide))]
    cases hk : nsKeyNum? kv.1 with
    | some k =>
      rw [mem_insertNat]
      constructor
      · intro h
        rcases h with h | h
        · exact Or.inl h
        · exact Or.inr ⟨h1, by rw [h]⟩
      · intro h
        rcases h with h | ⟨_, h⟩
        · exact Or.inl h
        · exact Or.inr (Option.some_inj.mp h).symm
    | none =>
      constructor
      · exact Or.inl
      · intro h
        rcases h with h | ⟨_, h⟩
        · exact h
        · exact absurd h (by simp)
  · rename_i h1
    constructor
    · exact Or.inl
    · intro h
      rcases h with h | ⟨hh, _⟩
      · exact h
      · exact absurd hh h1

theorem mem_foldl_nsStepFn :
    ∀ (m : List (String × String)) (acc : List Nat) (n : Nat),
      n ∈ m.foldl nsStepFn acc ↔
        n ∈ acc ∨ ∃ kv ∈ m, kv.2 = "1" ∧ nsKeyNum? kv.1 = some n := by
  intro m
  induction m with
  | nil => simp
  | cons kv rest ih =>
    intro acc n
    rw [List.foldl_cons, ih, mem_nsStepFn]
    constructor
    · intro h
      rcases h with (h | h) | h
      · exact Or.inl h
      · exact Or.inr ⟨kv, List.mem_cons_self kv rest, h⟩
      · obtain ⟨kw, hm, hh⟩ := h
        exact Or.inr ⟨kw, List.mem_cons_of_mem kv hm, hh⟩
    · intro h
      rcases h with h | ⟨kw, hm, hh⟩
      · exact Or.inl (Or.inl h)
      · rcases List.mem_cons.mp hm with hkw | hkw
        · exact Or.inl (Or.inr (hkw ▸ hh))
        · exact Or.inr ⟨kw, hkw, hh⟩

theorem mem_ns_from_params {m : List (String × String)} {n : Nat} :
    n ∈ ns_from_params m ↔ ∃ kv ∈ m, kv.2 = "1" ∧ nsKeyNum? kv.1 = some n := by
  unfold ns_from_params
  rw [mem_foldl_nsStepFn]
  simp

theorem ns_from_params_eq_nil_iff (m : List (String × String)) :
    ns_from_params m = [] ↔
      ¬ ∃ kv ∈ m, kv.2 = "1" ∧ (nsKeyNum? kv.1).isSome = true := by
  constructor
  · rintro h ⟨kv, hm, h1, hs⟩
    obtain ⟨n, hn⟩ := Option.isSome_iff_exists.mp hs
    have hmem : n ∈ ns_from_params m := mem_ns_from_params.mpr ⟨kv, hm, h1, hn⟩
    rw [h] at hmem
    exact absurd hmem (List.not_mem_nil n)
  · intro h
    cases hnp : ns_from_params m with
    | nil => rfl
    | cons a t =>
      have hmem : a ∈ ns_from_params m := by
        rw [hnp]
        exact List.mem_cons_self a t
      obtain ⟨kv, hm, h1, hn⟩ := mem_ns_from_params.mp hmem
      exact absurd ⟨kv, hm, h1, by rw [hn]; rfl⟩ h

/-! ### Claim C7 -/

/-- C7 counterexample: the map parsed from `ns=*` has derived NamespaceSet
`{0}` yet contains no `ns[0]=1` entry, so "contains `n` iff the map has
`ns[n]=1`" fails at `n = 0`. -/
theorem claim_c7_counterexample :
    0 ∈ (outcome_from_query "ns=*").ns ∧
    lookupKV (outcome_from_query "ns=*").params "ns[0]" ≠ some "1" :=
  ⟨by decide, by decide⟩

/-- C7 (amended): the derived NamespaceSet contains `n` iff the map has an
entry `ns[D]=1` whose digit run `D` denotes `n` (within the 64-bit range),
except that when no such entry exists and `ns` maps to `*`, the set is
exactly `{0}`; the two concrete examples hold. -/
theorem claim_c7_namespace_set :
    (∀ (m : List (String × String)) (n : Nat),
      n ∈ (FormParameters.legacy_parameters ⟨m, ns_from_params m⟩).ns ↔
        ((∃ kv ∈ m, kv.2 = "1" ∧ nsKeyNum? kv.1 = some n) ∨
         (n = 0 ∧ lookupKV m "ns" = some "*" ∧
           ¬ ∃ kv ∈ m, kv.2 = "1" ∧ (nsKeyNum? kv.1).isSome = true))) ∧
    (outcome_from_query "ns[3]=1&ns[7]=1").ns.toFinset = ({3, 7} : Finset Nat) ∧
    (outcome_from_query "ns=*").ns.toFinset = ({0} : Finset Nat) := by
  refine ⟨?_, by decide, by decide⟩
  intro m n
  rw [legacy_ns_eq ⟨m, ns_from_params m⟩]
  show n ∈ (if ns_from_params m = [] ∧ lookupKV m "ns" = some "*" then _ else _) ↔ _
  split
  · rename_i hcond
    obtain ⟨hnil, hstar⟩ := hcond
    rw [hnil]
    have hnone := (ns_from_params_eq_nil_iff m).mp hnil
    constructor
    · intro h
      have hn0 : n = 0 := by
        rcases mem_insertNat.mp h with h | h
        · exact absurd h (List.not_mem_nil n)
        · exact h
      exact Or.inr ⟨hn0, hstar, hnone⟩
    · intro h
      rcases h with ⟨kv, hm, h1, hn⟩ | ⟨hn0, _, _⟩
      · exact absurd ⟨kv, hm, h1, by rw [hn]; rfl⟩ hnone
      · rw [hn0]
        exact mem_insertNat.mpr (Or.inr rfl)
  · rename_i hcond
    rw [mem_ns_from_params]
    constructor
    · exact Or.inl
    · intro h
      rcases h with h | ⟨_, hstar, hnone⟩
      · exact h
      · exact absurd ⟨(ns_from_params_eq_nil_iff m).mpr hnone, hstar⟩ hcond

/-- Witness for C7: the characterization applied at a concrete map. -/
theorem claim_c7_namespace_set_witness :
    3 ∈ (FormParameters.legacy_parameters
      ⟨[("ns[3]", "1")], ns_from_params [("ns[3]", "1")]⟩).ns :=
  (claim_c7_namespace_set.1 [("ns[3]", "1")] 3).mpr
    (Or.inl ⟨("ns[3]", "1"), List.mem_singleton.mpr rfl, rfl, by decide⟩)

/-! ### Rebase-merge lemmas -/

theorem mergeStep_lookup_ne (acc : List (String × String)) (kv : String × String)
    (k : String) (h : kv.1 ≠ k) :
    lookupKV (mergeStep acc kv) k = lookupKV acc k := by
  unfold mergeStep
  cases hl : lookupKV acc kv.1 with
  | some w =>
    show lookupKV (if w = "" then insertKV acc kv.1 kv.2 else acc) k = lookupKV acc k
    split
    · exact lookupKV_insertKV_ne _ _ _ _ (fun hh => h hh.symm)
    · rfl
  | none =>
    show lookupKV (insertKV acc kv.1 kv.2) k = lookupKV acc k
    exact lookupKV_insertKV_ne _ _ _ _ (fun hh => h hh.symm)

/-- A non-blank value survives the whole merge. -/
theorem rebase_merge_keep :
    ∀ (base acc : List (String × String)) (k v : String), v ≠ "" →
      lookupKV acc k = some v → lookupKV (rebase_merge acc base) k = some v := by
  intro base
  induction base with
  | nil => intro acc k v _ h2; exact h2
  | cons kv rest ih =>
    intro acc k v h1 h2
    show lookupKV (rebase_merge (mergeStep acc kv) rest) k = some v
    by_cases hk : kv.1 = k
    · have hl : lookupKV acc kv.1 = some v := by rw [hk]; exact h2
      have hms : mergeStep acc kv = acc := by
        unfold mergeStep
        rw [hl]
        show (if v = "" then insertKV acc kv.1 kv.2 else acc) = acc
        rw [if_neg h1]
      rw [hms]
      exact ih acc k v h1 h2
    · refine ih _ k v h1 ?_
      rw [mergeStep_lookup_ne acc kv k hk]
      exact h2

/-- The first base entry for a key is adopted when the key is missing or
blank, and (being non-blank) then survives the rest of the merge. -/
theorem rebase_merge_adopt :
    ∀ (base acc : List (String × String)) (k v : String), v ≠ "" →
      lookupKV base k = some v →
      (lookupKV acc k = none ∨ lookupKV acc k = some "") →
      lookupKV (rebase_merge acc base) k = some v := by
  intro base
  induction base with
  | nil => intro acc k v _ hb _; exact absurd hb (by simp [lookupKV])
  | cons kv rest ih =>
    intro acc k v h1 hb hacc
    obtain ⟨k1, v1⟩ := kv
    show lookupKV (rebase_merge (mergeStep acc (k1, v1)) rest) k = some v
    by_cases hk : k1 = k
    · subst hk
      have hv1 : v1 = v := by
        have : (if k1 = k1 then some v1 else lookupKV rest k1) = some v := hb
        rw [if_pos rfl] at this
        exact Option.some_inj.mp this
      subst hv1
      have hstep : lookupKV (mergeStep acc (k1, v1)) k1 = some v1 := by
        unfold mergeStep
        rcases hacc with hacc | hacc
        · rw [hacc]
          show lookupKV (insertKV acc k1 v1) k1 = some v1
          exact lookupKV_insertKV_self acc k1 v1
        · rw [hacc]
          show lookupKV (if ("" : String) = "" then insertKV acc k1 v1 else acc) k1 =
            some v1
          rw [if_pos rfl]
          exact lookupKV_insertKV_self acc k1 v1
      exact rebase_merge_keep rest _ k1 v1 h1 hstep
    · have hb' : lookupKV rest k = some v := by
        have : (if k1 = k then some v1 else lookupKV rest k) = some v := hb
        rwa [if_neg hk] at this
      refine ih _ k v h1 hb' ?_
      rw [mergeStep_lookup_ne acc (k1, v1) k hk]
      exact hacc

/-- Merging never touches a key that no base entry carries. -/
theorem rebase_merge_not_mem :
    ∀ (base acc : List (String × String)) (k : String),
      (∀ kv ∈ base, kv.1 ≠ k) →
      lookupKV (rebase_merge acc base) k = lookupKV acc k := by
  intro base
  induction base with
  | nil => intro acc k _; rfl
  | cons kv rest ih =>
    intro acc k h
    show lookupKV (rebase_merge (mergeStep acc kv) rest) k = _
    rw [ih _ k (fun kw hkw => h kw (List.mem_cons_of_mem kv hkw))]
    exact mergeStep_lookup_ne acc kv k (h kv (List.mem_cons_self kv rest))

/-- One merge step at its own key: adopt exactly when missing or blank. -/
theorem mergeStep_lookup_self (acc : List (String × String)) (k v : String) :
    lookupKV (mergeStep acc (k, v)) k =
      (match lookupKV acc k with
       | some w => if w = "" then some v else some w
       | none => some v) := by
  unfold mergeStep
  cases hacc : lookupKV acc k with
  | some w =>
    show lookupKV (if w = "" then insertKV acc k v else acc) k =
      (if w = "" then some v else some w)
    by_cases hw : w = ""
    · rw [if_pos hw, if_pos hw, lookupKV_insertKV_self]
    · rw [if_neg hw, if_neg hw]
      exact hacc
  | none =>
    show lookupKV (insertKV acc k v) k = some v
    exact lookupKV_insertKV_self acc k v

/-- With duplicate-free base keys, the merge result at a base key is fully
characterized: adopted exactly when missing or blank in the current map. -/
theorem rebase_merge_adopt_char :
    ∀ (base acc : List (String × String)) (k v : String),
      (base.map Prod.fst).Nodup → (k, v) ∈ base →
      lookupKV (rebase_merge acc base) k =
        (match lookupKV acc k with
         | some w => if w = "" then some v else some w
         | none => some v) := by
  intro base
  induction base with
  | nil => intro acc k v _ hm; exact absurd hm (List.not_mem_nil _)
  | cons kv rest ih =>
    intro acc k v hnd hm
    obtain ⟨k1, v1⟩ := kv
    simp only [List.map_cons, List.nodup_cons] at hnd
    obtain ⟨hnd1, hnd2⟩ := hnd
    show lookupKV (rebase_merge (mergeStep acc (k1, v1)) rest) k = _
    rcases List.mem_cons.mp hm with hkv | hkv
    · injection hkv with hk hv
      subst hk
      subst hv
      have hrest : ∀ kw ∈ rest, kw.1 ≠ k := by
        intro kw hkw hkeq
        exact hnd1 (hkeq ▸ List.mem_map_of_mem Prod.fst hkw)
      rw [rebase_merge_not_mem rest _ k hrest]
      exact mergeStep_lookup_self acc k v
    · have hk1 : k1 ≠ k := by
        intro hkeq
        have : k ∈ rest.map Prod.fst := by
          have := List.mem_map_of_mem Prod.fst hkv
          exact this
        rw [hkeq] at hnd1
        exact hnd1 this
      rw [ih _ k v hnd2 hkv, mergeStep_lookup_ne acc (k1, v1) k hk1]

/-- The parameter map of a rebase is the legacy-normalized merge. -/
theorem rebase_params_eq (fp base : FormParameters) :
    (fp.rebase base).params =
      (FormParameters.legacy_parameters
        ⟨rebase_merge fp.params base.params, fp.ns⟩).params := by
  simp only [FormParameters.rebase]

/-! ### Claim C8 -/

set_option maxHeartbeats 1000000 in
/-- C8 counterexample: `rebase` with an empty base overwrites the present
non-blank value of `combination` (the legacy normalization it re-applies
rewrites it), refuting "never overwrites a present non-blank value". -/
theorem claim_c8_counterexample :
    lookupKV (FormParameters.rebase
      ⟨[("combination", "subset"), ("comb_union", "1")], []⟩
      ⟨[], []⟩).params "combination" = some "union" ∧
    lookupKV ([("combination", "subset"), ("comb_union", "1")] :
      List (String × String)) "combination" = some "subset" ∧
    ("subset" : String) ≠ "" :=
  ⟨by decide, by decide, by decide⟩

/-- C8 (amended): the merge phase of `rebase` adopts a base key's value
exactly when the current model lacks the key or has it present-but-blank
and never overwrites a present non-blank value; the re-applied legacy
normalization can then overwrite the modern keys, but keys outside its
four targets — such as the `foo` of the examples — keep the merge result:
`foo=bar` from base fills a missing or blank `foo`, while `foo=baz`
survives unchanged. -/
theorem claim_c8_rebase_policy :
    (∀ (selfFp base : FormParameters) (k v : String),
      (base.params.map Prod.fst).Nodup → (k, v) ∈ base.params →
      lookupKV (rebase_merge selfFp.params base.params) k =
        (match lookupKV selfFp.params k with
         | some w => if w = "" then some v else some w
         | none => some v)) ∧
    (∀ selfFp base : FormParameters,
      lookupKV base.params "foo" = some "bar" →
      (lookupKV selfFp.params "foo" = none ∨ lookupKV selfFp.params "foo" = some "") →
      lookupKV (selfFp.rebase base).params "foo" = some "bar") ∧
    (∀ selfFp base : FormParameters,
      lookupKV selfFp.params "foo" = some "baz" →
      lookupKV (selfFp.rebase base).params "foo" = some "baz") := by
  refine ⟨?_, ?_, ?_⟩
  · intro selfFp base k v hnd hm
    exact rebase_merge_adopt_char base.params selfFp.params k v hnd hm
  · intro selfFp base hb hself
    rw [rebase_params_eq,
      legacy_lookup_preserved _ "foo" (by decide) (by decide) (by decide) (by decide)]
    exact rebase_merge_adopt base.params selfFp.params "foo" "bar" (by decide) hb hself
  · intro selfFp base hself
    rw [rebase_params_eq,
      legacy_lookup_preserved _ "foo" (by decide) (by decide) (by decide) (by decide)]
    exact rebase_merge_keep base.params selfFp.params "foo" "baz" (by decide) hself

/-- Witness for C8 at concrete maps: all three parts of the policy. -/
theorem claim_c8_rebase_policy_witness :
    lookupKV (rebase_merge ([("a", "1")] : List (String × String)) [("foo", "bar")])
      "foo" = some "bar" ∧
    lookupKV (FormParameters.rebase ⟨[("a", "1")], []⟩
      ⟨[("foo", "bar")], []⟩).params "foo" = some "bar" ∧
    lookupKV (FormParameters.rebase ⟨[("foo", "baz")], []⟩
      ⟨[("foo", "bar")], []⟩).params "foo" = some "baz" :=
  ⟨(claim_c8_rebase_policy.1 ⟨[("a", "1")], []⟩ ⟨[("foo", "bar")], []⟩ "foo" "bar"
      (by decide) (by decide)).trans rfl,
   claim_c8_rebase_policy.2.1 ⟨[("a", "1")], []⟩ ⟨[("foo", "bar")], []⟩
     (by decide) (Or.inl (by decide)),
   claim_c8_rebase_policy.2.2 ⟨[("foo", "baz")], []⟩ ⟨[("foo", "bar")], []⟩ (by decide)⟩

/-! ### Claim C3 infrastructure -/

/-- Key/value-set equality of two pair lists (order-insensitive, as the
spec's round-trip property demands). -/
def kvSetEq (l1 l2 : List (String × String)) : Prop :=
  (∀ p ∈ l1, p ∈ l2) ∧ (∀ p ∈ l2, p ∈ l1)

instance (l1 l2 : List (String × String)) : Decidable (kvSetEq l1 l2) :=
  inferInstanceAs (Decidable (_ ∧ _))

/-- Characters the serializer emits unchanged and the decoder leaves alone:
printable ASCII except space, the DEFAULT_ENCODE_SET specials, and the
query metacharacters `& = % +`. -/
def charSafe (c : Char) : Bool :=
  0x20 < c.toNat && c.toNat < 0x7f &&
    !(c ∈ ([0x22, 0x23, 0x3c, 0x3e, 0x60, 0x3f, 0x7b, 0x7d,
            0x26, 0x3d, 0x25, 0x2b].map Char.ofNat))

/-- Every character of the string is safe. -/
def strSafe (s : String) : Prop := ∀ c ∈ s.data, charSafe c = true

instance (s : String) : Decidable (strSafe s) :=
  inferInstanceAs (Decidable (∀ c ∈ s.data, _ = true))

/-- The keys whose presence triggers a legacy rewrite of the parameter map. -/
def legacyTriggers : List String :=
  ["lang", "cats", "comb_subset", "comb_union", "get_q", "wikidata",
   "wikidata_no_item"]

theorem string_mk_data (s : String) : (⟨s.data⟩ : String) = s := rfl

theorem charSafe_parts {c : Char} (h : charSafe c = true) :
    (0x20 < c.toNat ∧ c.toNat < 0x7f) ∧
      c ∉ ([0x22, 0x23, 0x3c, 0x3e, 0x60, 0x3f, 0x7b, 0x7d,
            0x26, 0x3d, 0x25, 0x2b].map Char.ofNat) := by
  unfold charSafe at h
  simp only [Bool.and_eq_true, Bool.not_eq_true', decide_eq_true_eq,
    decide_eq_false_iff_not] at h
  exact h

theorem charSafe_ne_plus {c : Char} (h : charSafe c = true) : c ≠ '+' := by
  intro hc
  subst hc
  exact absurd h (by decide)

theorem charSafe_ne_pct {c : Char} (h : charSafe c = true) : c ≠ '%' := by
  intro hc
  subst hc
  exact absurd h (by decide)

theorem charSafe_ne_amp {c : Char} (h : charSafe c = true) : c ≠ '&' := by
  intro hc
  subst hc
  exact absurd h (by decide)

theorem charSafe_ne_eq {c : Char} (h : charSafe c = true) : c ≠ '=' := by
  intro hc
  subst hc
  exact absurd h (by decide)

theorem charSafe_not_needsEncode {c : Char} (h : charSafe c = true) :
    needsEncode c = false := by
  obtain ⟨⟨h1, h2⟩, h3⟩ := charSafe_parts h
  unfold needsEncode
  simp only [Bool.or_eq_false_iff]
  refine ⟨⟨decide_eq_false (by omega), decide_eq_false (by omega)⟩, ?_⟩
  rw [decide_eq_false]
  intro hmem
  obtain ⟨n, hn, hcn⟩ := List.mem_map.mp hmem
  simp only [List.mem_cons, List.not_mem_nil, or_false] at hn
  rcases hn with rfl | rfl | rfl | rfl | rfl | rfl | rfl | rfl | rfl
  · rw [← hcn] at h1
    exact absurd h1 (by decide)
  all_goals
    subst hcn
    exact h3 (by decide)

/-- Safe characters are emitted unchanged by the percent-encoder. -/
theorem flatMap_encodeChar_safe :
    ∀ l : List Char, (∀ c ∈ l, charSafe c = true) → l.flatMap encodeChar = l := by
  intro l
  induction l with
  | nil => intro _; rfl
  | cons c rest ih =>
    intro h
    have hc := h c (List.mem_cons_self c rest)
    have henc : encodeChar c = [c] := by
      simp [encodeChar, charSafe_not_needsEncode hc]
    rw [List.flatMap_cons, henc, ih (fun d hd => h d (List.mem_cons_of_mem c hd))]
    rfl

theorem pctEncode_safe {s : String} (h : strSafe s) : pctEncode s = s := by
  unfold pctEncode
  rw [flatMap_encodeChar_safe s.data h]

/-- Safe characters pass through the percent-decoder unchanged. -/
theorem pctDecode_safe :
    ∀ l : List Char, (∀ c ∈ l, charSafe c = true) → pctDecode l = l := by
  intro l
  induction l with
  | nil => intro _; rfl
  | cons c rest ih =>
    intro h
    have hc := h c (List.mem_cons_self c rest)
    rw [pctDecode.eq_def]
    dsimp only
    rw [if_neg (charSafe_ne_plus hc), if_neg (charSafe_ne_pct hc),
      ih (fun d hd => h d (List.mem_cons_of_mem c hd))]

/-! ### Split/join round-trip lemmas -/

/-- Character-list join with a separator character. -/
def joinLC (sep : Char) : List (List Char) → List Char
  | [] => []
  | [x] => x
  | x :: xs => x ++ sep :: joinLC sep xs

theorem data_joinSep_amp :
    ∀ ss : List String, (joinSep "&" ss).data = joinLC '&' (ss.map String.data)
  | [] => rfl
  | [x] => rfl
  | x :: y :: t => by
    show (x ++ "&" ++ joinSep "&" (y :: t)).data = x.data ++ '&' :: joinLC '&' _
    rw [String.data_append, String.data_append, data_joinSep_amp (y :: t)]
    simp [joinLC]

theorem splitOnCharL_no_sep :
    ∀ {sep : Char} (l : List Char), sep ∉ l → splitOnCharL sep l = [l] := by
  intro sep l
  induction l with
  | nil => intro _; rfl
  | cons c rest ih =>
    intro h
    simp only [splitOnCharL]
    rw [if_neg (fun hc : c = sep => h (by rw [← hc]; exact List.mem_cons_self c rest)),
      ih (fun hm => h (List.mem_cons_of_mem c hm))]

theorem splitOnCharL_sep_append :
    ∀ {sep : Char} (x r : List Char), sep ∉ x →
      splitOnCharL sep (x ++ sep :: r) = x :: splitOnCharL sep r := by
  intro sep x
  induction x with
  | nil =>
    intro r _
    rw [List.nil_append]
    simp [splitOnCharL]
  | cons c x' ih =>
    intro r h
    rw [List.cons_append]
    simp only [splitOnCharL]
    rw [if_neg (fun hc : c = sep => h (by rw [← hc]; exact List.mem_cons_self c x')),
      ih r (fun hm => h (List.mem_cons_of_mem c hm))]

theorem splitOnCharL_joinLC :
    ∀ (pieces : List (List Char)), pieces ≠ [] → (∀ p ∈ pieces, '&' ∉ p) →
      splitOnCharL '&' (joinLC '&' pieces) = pieces := by
  intro pieces
  induction pieces with
  | nil => intro h _; exact absurd rfl h
  | cons x xs ih =>
    intro _ h
    cases xs with
    | nil =>
      exact splitOnCharL_no_sep x (h x (List.mem_cons_self x []))
    | cons y t =>
      show splitOnCharL '&' (x ++ '&' :: joinLC '&' (y :: t)) = _
      rw [splitOnCharL_sep_append x _ (h x (List.mem_cons_self x (y :: t))),
        ih (by simp) (fun p hp => h p (List.mem_cons_of_mem x hp))]

theorem splitFirstChar_eq_append :
    ∀ (k v : List Char), '=' ∉ k →
      splitFirstChar '=' (k ++ '=' :: v) = (k, some v) := by
  intro k v
  induction k with
  | nil =>
    intro _
    rw [List.nil_append]
    simp [splitFirstChar]
  | cons c k' ih =>
    intro h
    rw [List.cons_append]
    simp only [splitFirstChar]
    rw [if_neg (fun hc : c = '=' => h (by rw [← hc]; exact List.mem_cons_self c k')),
      ih (fun hm => h (List.mem_cons_of_mem c hm))]

/-! ### Parameter-map construction lemmas -/

theorem lookupKV_eq_none_iff {α : Type} (m : List (String × α)) (k : String) :
    lookupKV m k = none ↔ ∀ kv ∈ m, kv.1 ≠ k := by
  induction m with
  | nil => simp [lookupKV]
  | cons p t ih =>
    obtain ⟨a, b⟩ := p
    show (if a = k then some b else lookupKV t k) = none ↔ _
    by_cases hak : a = k
    · rw [if_pos hak]
      constructor
      · intro h
        exact absurd h (by simp)
      · intro h
        exact absurd hak (h (a, b) (List.mem_cons_self _ _))
    · rw [if_neg hak, ih]
      constructor
      · intro h kv hkv
        rcases List.mem_cons.mp hkv with rfl | hm
        · exact hak
        · exact h kv hm
      · intro h kv hkv
        exact h kv (List.mem_cons_of_mem _ hkv)

/-- Collecting pairs with pairwise-distinct keys into the map (last value
wins) just appends them. -/
theorem pairsToParams_acc :
    ∀ (pairs acc : List (String × String)),
      (pairs.map Prod.fst).Nodup →
      (∀ kv ∈ pairs, lookupKV acc kv.1 = none) →
      pairs.foldl (fun m kv => insertKV m kv.1 kv.2) acc = acc ++ pairs := by
  intro pairs
  induction pairs with
  | nil => intro acc _ _; simp
  | cons kv rest ih =>
    intro acc hnd hdisj
    obtain ⟨k1, v1⟩ := kv
    simp only [List.map_cons, List.nodup_cons] at hnd
    obtain ⟨hnd1, hnd2⟩ := hnd
    rw [List.foldl_cons]
    have hins : insertKV acc k1 v1 = acc ++ [(k1, v1)] := by
      unfold insertKV
      rw [if_neg]
      simp [hasKeyKV, hdisj (k1, v1) (List.mem_cons_self _ _)]
    have hdisj2 : ∀ kw ∈ rest, lookupKV (acc ++ [(k1, v1)]) kw.1 = none := by
      intro kw hkw
      rw [lookupKV_append, hdisj kw (List.mem_cons_of_mem _ hkw)]
      show (if k1 = kw.1 then some v1 else lookupKV [] kw.1) = none
      rw [if_neg (fun hk : k1 = kw.1 =>
        hnd1 (by rw [hk]; exact List.mem_map_of_mem Prod.fst hkw))]
      rfl
    show rest.foldl (fun m kv => insertKV m kv.1 kv.2) (insertKV acc k1 v1) = _
    rw [hins, ih (acc ++ [(k1, v1)]) hnd2 hdisj2, List.append_assoc]
    rfl

/-! ### Legacy identity when no trigger key is present -/

theorem fallback_no_key (fp : FormParameters) (kp kf : String)
    (h : lookupKV fp.params kf = none) : fp.fallback kp kf = fp := by
  have hc : fp.has_param kf = false := by
    unfold FormParameters.has_param hasKeyKV
    rw [h]
    rfl
  unfold FormParameters.fallback
  rw [if_pos hc]

theorem legacy_step_no_trigger (fp : FormParameters) (t k1 v : String)
    (h : lookupKV fp.params t = none) : legacy_step fp t k1 v = fp := by
  have hc : fp.has_param t = false := by
    unfold FormParameters.has_param hasKeyKV
    rw [h]
    rfl
  unfold legacy_step
  rw [if_neg (show ¬ fp.has_param t = true from by rw [hc]; simp)]

/-- With no legacy trigger key present, legacy normalization leaves the
parameter map untouched. -/
theorem legacy_params_id (fp : FormParameters)
    (hlang : lookupKV fp.params "lang" = none)
    (hcats : lookupKV fp.params "cats" = none)
    (hcs : lookupKV fp.params "comb_subset" = none)
    (hcu : lookupKV fp.params "comb_union" = none)
    (hgq : lookupKV fp.params "get_q" = none)
    (hwd : lookupKV fp.params "wikidata" = none)
    (hwn : lookupKV fp.params "wikidata_no_item" = none) :
    (FormParameters.legacy_parameters fp).params = fp.params := by
  simp only [FormParameters.legacy_parameters]
  rw [fallback_no_key fp "language" "lang" hlang,
    fallback_no_key fp "categories" "cats" hcats]
  have hp := params_ns_step fp
  rw [legacy_step_no_trigger (legacy_ns_star fp) "comb_subset" "combination" "subset"
      (by rw [hp]; exact hcs),
    legacy_step_no_trigger (legacy_ns_star fp) "comb_union" "combination" "union"
      (by rw [hp]; exact hcu),
    legacy_step_no_trigger (legacy_ns_star fp) "get_q" "wikidata_item" "any"
      (by rw [hp]; exact hgq),
    legacy_step_no_trigger (legacy_ns_star fp) "wikidata" "wikidata_item" "any"
      (by rw [hp]; exact hwd),
    legacy_step_no_trigger (legacy_ns_star fp) "wikidata_no_item" "wikidata_item"
      "without" (by rw [hp]; exact hwn)]
  exact hp

/-- Decoding the serialized form of a safe parameter map recovers it. -/
theorem decode_to_string (params : List (String × String)) (ns : List Nat)
    (hsafe : ∀ kv ∈ params, strSafe kv.1 ∧ strSafe kv.2) :
    decodeQueryPairs (FormParameters.to_string ⟨params, ns⟩) = params := by
  unfold FormParameters.to_string decodeQueryPairs
  have hmapenc : params.map (fun kv => pctEncode kv.1 ++ "=" ++ pctEncode kv.2) =
      params.map (fun kv => kv.1 ++ "=" ++ kv.2) := by
    apply List.map_congr_left
    intro kv hkv
    rw [pctEncode_safe (hsafe kv hkv).1, pctEncode_safe (hsafe kv hkv).2]
  rw [hmapenc, data_joinSep_amp, List.map_map]
  have hdata : params.map (String.data ∘ fun kv => kv.1 ++ "=" ++ kv.2) =
      params.map (fun kv => kv.1.data ++ '=' :: kv.2.data) := by
    apply List.map_congr_left
    intro kv _
    show (kv.1 ++ "=" ++ kv.2).data = _
    rw [String.data_append, String.data_append, List.append_assoc]
    rfl
  rw [hdata]
  cases params with
  | nil => rfl
  | cons kv0 rest =>
    have hnoamp : ∀ p ∈ (kv0 :: rest).map (fun kv => kv.1.data ++ '=' :: kv.2.data),
        '&' ∉ p := by
      intro p hp hampin
      obtain ⟨kv, hkv, hpe⟩ := List.mem_map.mp hp
      rw [← hpe] at hampin
      rcases List.mem_append.mp hampin with hin | hin
      · exact charSafe_ne_amp ((hsafe kv hkv).1 '&' hin) rfl
      · rcases List.mem_cons.mp hin with heq | hin
        · exact absurd heq (by decide)
        · exact charSafe_ne_amp ((hsafe kv hkv).2 '&' hin) rfl
    rw [splitOnCharL_joinLC _ (by simp) hnoamp]
    have hfil : ((kv0 :: rest).map (fun kv => kv.1.data ++ '=' :: kv.2.data)).filter
        (fun piece => piece ≠ []) =
        (kv0 :: rest).map (fun kv => kv.1.data ++ '=' :: kv.2.data) := by
      apply List.filter_eq_self.mpr
      intro p hp
      obtain ⟨kv, _, hpe⟩ := List.mem_map.mp hp
      rw [← hpe]
      simp
    rw [hfil, List.map_map]
    have hid : ∀ kv ∈ kv0 :: rest,
        ((fun piece =>
            ((⟨pctDecode (splitFirstChar '=' piece).1⟩ : String),
             (⟨pctDecode ((splitFirstChar '=' piece).2.getD [])⟩ : String))) ∘
          fun kv => kv.1.data ++ '=' :: kv.2.data) kv = id kv := by
      intro kv hkv
      have hne : '=' ∉ kv.1.data := by
        intro hin
        exact charSafe_ne_eq ((hsafe kv hkv).1 '=' hin) rfl
      show ((⟨pctDecode (splitFirstChar '=' (kv.1.data ++ '=' :: kv.2.data)).1⟩ : String),
        (⟨pctDecode ((splitFirstChar '=' (kv.1.data ++ '=' :: kv.2.data)).2.getD [])⟩ :
          String)) = kv
      rw [splitFirstChar_eq_append kv.1.data kv.2.data hne]
      show ((⟨pctDecode kv.1.data⟩ : String), (⟨pctDecode kv.2.data⟩ : String)) = kv
      rw [pctDecode_safe kv.1.data (hsafe kv hkv).1,
        pctDecode_safe kv.2.data (hsafe kv hkv).2]
    rw [List.map_congr_left hid, List.map_id]

/-! ### Claim C3 -/

/-- C3 counterexample: for `q = "lang=en"`, parsing applies the legacy
fallback and adds `language=en`, so serialization yields the pair set
`[("lang","en"), ("language","en")]`, not the decoded pairs of `q`. -/
theorem claim_c3_counterexample :
    ¬ kvSetEq
      (decodeQueryPairs ((outcome_from_query "lang=en").to_string))
      (decodeQueryPairs "lang=en") := by decide

/-- C3 (amended): the parse/serialize round trip preserves the key/value
set for query strings whose decoded pairs have pairwise-distinct keys, no
legacy-trigger keys, and only characters the serializer emits unchanged;
in general the serialized set is instead the decoded set after
last-value-wins deduplication and legacy normalization, which can add
pairs (e.g. `lang=en` gains `language=en`). -/
theorem claim_c3_roundtrip (q : String)
    (hnd : ((decodeQueryPairs q).map Prod.fst).Nodup)
    (hsafe : ∀ kv ∈ decodeQueryPairs q, strSafe kv.1 ∧ strSafe kv.2)
    (htrig : ∀ kv ∈ decodeQueryPairs q, kv.1 ∉ legacyTriggers) :
    kvSetEq (decodeQueryPairs ((outcome_from_query q).to_string))
      (decodeQueryPairs q) := by
  have hpp : pairsToParams (decodeQueryPairs q) = decodeQueryPairs q := by
    unfold pairsToParams
    have h := pairsToParams_acc (decodeQueryPairs q) [] hnd (fun kv _ => rfl)
    simpa using h
  have hnone : ∀ t ∈ legacyTriggers,
      lookupKV (pairsToParams (decodeQueryPairs q)) t = none := by
    intro t ht
    rw [hpp]
    apply (lookupKV_eq_none_iff _ t).mpr
    intro kv hkv hkt
    exact htrig kv hkv (hkt ▸ ht)
  have hparams : (outcome_from_query q).params = decodeQueryPairs q := by
    show (FormParameters.legacy_parameters
      ⟨pairsToParams (decodeQueryPairs q),
       ns_from_params (pairsToParams (decodeQueryPairs q))⟩).params = _
    rw [legacy_params_id _ (hnone "lang" (by decide)) (hnone "cats" (by decide))
      (hnone "comb_subset" (by decide)) (hnone "comb_union" (by decide))
      (hnone "get_q" (by decide)) (hnone "wikidata" (by decide))
      (hnone "wikidata_no_item" (by decide))]
    exact hpp
  have hts : (outcome_from_query q).to_string =
      FormParameters.to_string ⟨decodeQueryPairs q, (outcome_from_query q).ns⟩ := by
    unfold FormParameters.to_string
    rw [hparams]
  rw [hts, decode_to_string _ _ hsafe]
  exact ⟨fun p hp => hp, fun p hp => hp⟩

/-- Witness for C3 at the concrete safe query `a=1&b=2`. -/
theorem claim_c3_roundtrip_witness :
    kvSetEq (decodeQueryPairs ((outcome_from_query "a=1&b=2").to_string))
      (decodeQueryPairs "a=1&b=2") :=
  claim_c3_roundtrip "a=1&b=2" (by decide) (by decide) (by decide)
